import Mathlib

/-!
Verification development for the usage-aggregation engine of the
cf-billing-usage-analytics worker.

Modelling conventions (shallow embedding of the TypeScript source):

* JavaScript numbers are modelled as rationals (`ℚ`).  IEEE special values
  (`NaN`, `Infinity`) are not representable in this model; the one place the
  source tests `isFinite` (`calculateConfidencePercent`) is noted at its
  definition.
* Raw GraphQL payloads are modelled by the JSON-like inductive `JVal`; a
  property access that would throw in JS, and one that yields `undefined`
  and is then caught by a falsiness check, both surface as `Option.none`
  during extraction.  Every such path in `extractValue` ends in the same
  `{ value: 0 }` result as the source's `try`/`catch`, so the collapse is
  observationally faithful.
* Network I/O (`executeGraphQL`) is replaced by response oracles: a
  `QueryResult` is either `thrown msg` (the call rejected / non-2xx, i.e. an
  exception) or `response errors data` (a `GraphQLResponse` whose optional
  `errors` array is collapsed to a possibly-empty list of messages).
* `Date.now()` timing is replaced by an explicit `duration` argument;
  `new Date()` timestamps by an explicit `timestamp` argument.
* The product registry (`getAllProducts()`, a constant list assembled in
  `products/registry.ts`) and `CONTRACT_CONFIG.productOverrides` are passed
  as parameters (`registry`, `productOverrides`), so that theorems quantify
  over every possible catalog and override table.
* Fields of `ProductDefinition` that no verified claim touches
  (`description`, `docsUrl`, `dimensionFilters`, `enabledByDefault` callers)
  are carried only where needed; the GraphQL query *text* built by
  `buildZoneQuery`/`buildAccountQuery` is not rendered (its time-filter
  dialect data, the part the claims are about, is modelled by
  `getFilterConfig` and `formatDateForQuery`).
-/

/-- Aggregation type of a metric: `'sum' | 'count' | 'avg' | 'max'`
(products/types.ts). -/
inductive AggregationType where
  | sum
  | count
  | avg
  | max
deriving DecidableEq, Repr

/-- Scope of a metric: `'zone' | 'account'` (products/types.ts). -/
inductive ProductScope where
  | zone
  | account
deriving DecidableEq, Repr

/-- Confidence interval data (products/types.ts `ConfidenceInterval`). -/
structure ConfidenceInterval where
  estimate : ℚ
  lower : ℚ
  upper : ℚ
  sampleSize : ℚ
  isValid : Bool
  level : ℚ
  confidencePercent : Option ℚ := none
deriving DecidableEq, Repr

/-- `CONFIDENCE_LEVEL = 0.95` (storage.ts GraphQL client). -/
def CONFIDENCE_LEVEL : ℚ := 0.95

/-- `calculateConfidencePercent` (storage.ts lines 790-797).
The source guard is `estimate === 0 || !isFinite(estimate)`; in the rational
model every value is finite, so only the `estimate === 0` arm of the guard is
representable. -/
def calculateConfidencePercent (estimate lower upper : ℚ) : ℚ :=
  if estimate = 0 then 99
  else
    let range := upper - lower
    let relativeRange := range / estimate * 100
    let confidencePercent := 100 - relativeRange / 2
    max 0 (min 99 confidencePercent)

/-- JSON-like value for raw GraphQL payloads. -/
inductive JVal where
  | null
  | bool (b : Bool)
  | num (q : ℚ)
  | str (s : String)
  | arr (items : List JVal)
  | obj (fields : List (String × JVal))

/-- Object member access; `none` models both a JS access that throws
(member of `null`/`undefined`) and one that yields `undefined`. -/
def JVal.getField? : JVal → String → Option JVal
  | .obj fields, key => (fields.find? (fun kv => kv.1 == key)).map (·.2)
  | _, _ => none

/-- View a JSON value as an array. -/
def JVal.asArr? : JVal → Option (List JVal)
  | .arr items => some items
  | _ => none

/-- View a JSON value as a number.  Non-numeric JSON where the source
expects a number is treated as absent (the source would coerce oddly; the
GraphQL schema only ever delivers numbers there). -/
def JVal.asNum? : JVal → Option ℚ
  | .num q => some q
  | _ => none

/-- JS truthiness of a JSON value. -/
def JVal.truthy : JVal → Bool
  | .null => false
  | .bool b => b
  | .num q => decide (q ≠ 0)
  | .str s => decide (s ≠ "")
  | .arr _ => true
  | .obj _ => true

/-- Result of `extractValue` (storage.ts `ExtractedResult`). -/
structure ExtractedResult where
  value : ℚ
  confidence : Option ConfidenceInterval := none
deriving DecidableEq, Repr

/-- Per-row aggregate value read inside the `extractValue` loop
(storage.ts lines 836-852): `item.count ?? 0`,
`(item.sum)?.[field] ?? 0`, etc. -/
def rowValue (agg : AggregationType) (field : String) (item : JVal) : ℚ :=
  match agg with
  | .count => ((item.getField? "count").bind JVal.asNum?).getD 0
  | .avg => (((item.getField? "avg").bind (·.getField? field)).bind JVal.asNum?).getD 0
  | .max => (((item.getField? "max").bind (·.getField? field)).bind JVal.asNum?).getD 0
  | .sum => (((item.getField? "sum").bind (·.getField? field)).bind JVal.asNum?).getD 0

/-- Accumulator of the confidence-combination loops (the local mutable
variables `totalEstimate` … `allValid` of `extractValue` and of the zone
fan-out in `queryProductUsage`). -/
structure ConfAccum where
  totalEstimate : ℚ := 0
  totalLower : ℚ := 0
  totalUpper : ℚ := 0
  totalSampleSize : ℚ := 0
  hasConfidence : Bool := false
  confidenceLevel : ℚ := CONFIDENCE_LEVEL
  allValid : Bool := true
deriving DecidableEq, Repr

/-- The nested confidence record selected by aggregation type
(storage.ts lines 863-878). -/
def nestedConfidenceFor (agg : AggregationType) (field : String) (confidenceData : JVal) :
    Option JVal :=
  match agg with
  | .count => confidenceData.getField? "count"
  | .avg => (confidenceData.getField? "avg").bind (·.getField? field)
  | .max => (confidenceData.getField? "max").bind (·.getField? field)
  | .sum => (confidenceData.getField? "sum").bind (·.getField? field)

/-- One row's contribution to the confidence accumulator inside
`extractValue` (storage.ts lines 856-889).  `item.confidence` and the nested
record are guarded by JS truthiness; `level` falls back to
`CONFIDENCE_LEVEL` via `??`; a missing/falsy `isValid` clears `allValid`. -/
def extractRowConfidence (agg : AggregationType) (field : String) (acc : ConfAccum)
    (item : JVal) : ConfAccum :=
  match item.getField? "confidence" with
  | none => acc
  | some confidenceData =>
    if confidenceData.truthy then
      let acc := { acc with
        hasConfidence := true
        confidenceLevel :=
          ((confidenceData.getField? "level").bind JVal.asNum?).getD CONFIDENCE_LEVEL }
      match nestedConfidenceFor agg field confidenceData with
      | none => acc
      | some nested =>
        if nested.truthy then
          { acc with
            totalEstimate :=
              acc.totalEstimate + ((nested.getField? "estimate").bind JVal.asNum?).getD 0
            totalLower :=
              acc.totalLower + ((nested.getField? "lower").bind JVal.asNum?).getD 0
            totalUpper :=
              acc.totalUpper + ((nested.getField? "upper").bind JVal.asNum?).getD 0
            totalSampleSize :=
              acc.totalSampleSize + ((nested.getField? "sampleSize").bind JVal.asNum?).getD 0
            allValid :=
              if ((nested.getField? "isValid").map JVal.truthy).getD false then acc.allValid
              else false }
        else acc
    else acc

/-- The key used to locate the scope array (storage.ts line 811). -/
def scopeKey : ProductScope → String
  | .zone => "zones"
  | .account => "accounts"

/-- Build the final confidence interval from an accumulator; used by both
`extractValue` (lines 895-905) and the zone fan-out (lines 1022-1032):
an interval is produced only when `hasConfidence && totalEstimate > 0`. -/
def finalizeConfidence (acc : ConfAccum) : Option ConfidenceInterval :=
  if acc.hasConfidence && decide (acc.totalEstimate > 0) then
    some
      { estimate := acc.totalEstimate
        lower := acc.totalLower
        upper := acc.totalUpper
        sampleSize := acc.totalSampleSize
        isValid := acc.allValid
        level := acc.confidenceLevel
        confidencePercent :=
          some (calculateConfidencePercent acc.totalEstimate acc.totalLower acc.totalUpper) }
  else none

/-- Inner navigation and row loop of `extractValue` (storage.ts lines
809-907).  `none` covers every structural mismatch, whether it threw in JS
(caught at line 908) or fell out via a falsiness guard: all of them produce
`{ value: 0 }` through `extractValue` below. -/
def extractValueCore (data : JVal) (dataset field : String) (agg : AggregationType)
    (scope : ProductScope) : Option ExtractedResult := do
  let viewer ← data.getField? "viewer"
  let scopeData ← (viewer.getField? (scopeKey scope)).bind JVal.asArr?
  if scopeData.isEmpty then
    return { value := 0 }
  let firstScope ← scopeData.head?
  let datasetResults ← (firstScope.getField? dataset).bind JVal.asArr?
  if datasetResults.isEmpty then
    return { value := 0 }
  let st := datasetResults.foldl
    (fun (st : ℚ × ConfAccum) item =>
      (st.1 + rowValue agg field item, extractRowConfidence agg field st.2 item))
    (0, {})
  return { value := st.1, confidence := finalizeConfidence st.2 }

/-- `extractValue` (storage.ts lines 802-912), `try`/`catch` folded in. -/
def extractValue (data : JVal) (dataset field : String) (agg : AggregationType)
    (scope : ProductScope) : ExtractedResult :=
  (extractValueCore data dataset field agg scope).getD { value := 0 }

/-- One zone partition's step of the confidence aggregation in the zone
fan-out of `queryProductUsage` (storage.ts lines 1007-1017). -/
def confStep (acc : ConfAccum) (c : ConfidenceInterval) : ConfAccum :=
  { acc with
    hasConfidence := true
    totalEstimate := acc.totalEstimate + c.estimate
    totalLower := acc.totalLower + c.lower
    totalUpper := acc.totalUpper + c.upper
    totalSampleSize := acc.totalSampleSize + c.sampleSize
    confidenceLevel := c.level
    allValid := if c.isValid then acc.allValid else false }

/-- The confidence combiner of spec §4.2: the per-partition aggregation
performed by the zone fan-out loop of `queryProductUsage`, applied to the
list of partition intervals in fan-out order. -/
def combineConfidence (parts : List ConfidenceInterval) : Option ConfidenceInterval :=
  finalizeConfidence (parts.foldl confStep {})

/-- Civil date-time in the runtime's local time zone, as decomposed by
`Date#getFullYear/getMonth/getDate` (month 0-based, day 1-based). -/
structure CivilDateTime where
  year : Int
  month : Int
  day : Int
  hour : Int := 0
  minute : Int := 0
deriving DecidableEq, Repr

/-- Models `new Date(y, m, d, 0, 0, 0, 0)` (and `setMonth`) for day values
1-28: JS normalises an out-of-range month into the year (floor division,
which for the positive divisor 12 coincides with `Int` `/` and `%`); a day
in 1..28 exists in every month, so no day normalisation occurs. -/
def mkLocalMidnight (y m d : Int) : CivilDateTime :=
  { year := y + m / 12, month := m % 12, day := d }

/-- `getCurrentBillingPeriod` (config.ts lines 146-166), with `now` and the
configured `startDay` as explicit inputs.  The configured timezone is never
read by the source. -/
def getCurrentBillingPeriod (startDay : Int) (now : CivilDateTime) :
    CivilDateTime × CivilDateTime :=
  let start := mkLocalMidnight now.year now.month startDay
  let start :=
    if now.day < startDay then mkLocalMidnight now.year (now.month - 1) startDay
    else start
  let stop := mkLocalMidnight start.year (start.month + 1) start.day
  (start, stop)

/-- Instant in UTC, as printed by `Date#toISOString` (month and day here are
the 1-based printed components). -/
structure JSDate where
  year : Nat
  month : Nat
  day : Nat
  hour : Nat
  minute : Nat
  second : Nat
  ms : Nat
deriving DecidableEq, Repr

/-- Decimal digit character. -/
def digitChar (n : Nat) : Char := Char.ofNat (48 + n % 10)

/-- Two-digit zero-padded decimal rendering (exact for values below 100,
which covers every ISO component it is applied to). -/
def pad2 (n : Nat) : List Char := [digitChar (n / 10), digitChar n]

/-- Three-digit zero-padded decimal rendering. -/
def pad3 (n : Nat) : List Char := [digitChar (n / 100), digitChar (n / 10), digitChar n]

/-- Four-digit zero-padded decimal rendering (exact for four-digit years,
the only years the billing calculator produces in practice). -/
def pad4 (n : Nat) : List Char :=
  [digitChar (n / 1000), digitChar (n / 100), digitChar (n / 10), digitChar n]

/-- The `YYYY-MM-DD` part of `toISOString`. -/
def isoDateChars (d : JSDate) : List Char :=
  pad4 d.year ++ '-' :: pad2 d.month ++ '-' :: pad2 d.day

/-- The `HH:mm:ss.sss` part of `toISOString`. -/
def isoTimeChars (d : JSDate) : List Char :=
  pad2 d.hour ++ ':' :: pad2 d.minute ++ ':' :: pad2 d.second ++ '.' :: pad3 d.ms

/-- `Date#toISOString`: `YYYY-MM-DDTHH:mm:ss.sssZ`. -/
def toISOString (d : JSDate) : String :=
  String.mk (isoDateChars d ++ 'T' :: (isoTimeChars d ++ ['Z']))

/-- Characters strictly before the first occurrence of `c`; models
`s.split(c)[0]`. -/
def takeBeforeChar (c : Char) : List Char → List Char
  | [] => []
  | x :: xs => if x = c then [] else x :: takeBeforeChar c xs

/-- `formatDateForQuery` (storage.ts lines 917-922):
`date.toISOString().split('T')[0]` for the `date` filter field, otherwise
the full `toISOString()`. -/
def formatDateForQuery (date : JSDate) (filterField : String) : String :=
  if filterField = "date" then String.mk (takeBeforeChar 'T' (toISOString date).data)
  else toISOString date

/-- Truncation of an instant to the top of its hour (what an
"hour-truncated timestamp" would bind). -/
def truncateToHour (d : JSDate) : JSDate :=
  { d with minute := 0, second := 0, ms := 0 }

/-- The GraphQL filter field names and type for a `filterField`
(storage.ts `getFilterConfig`, lines 684-698). -/
structure FilterConfig where
  filterStart : String
  filterEnd : String
  graphqlType : String
deriving DecidableEq, Repr

/-- `getFilterConfig` (storage.ts lines 684-698): the `switch` on
`filterField` with `datetime` as the `default` arm. -/
def getFilterConfig (filterField : String) : FilterConfig :=
  if filterField = "date" then
    { filterStart := "date_geq", filterEnd := "date_lt", graphqlType := "Date" }
  else if filterField = "datetimeHour" then
    { filterStart := "datetimeHour_geq", filterEnd := "datetimeHour_lt", graphqlType := "Time" }
  else
    { filterStart := "datetime_geq", filterEnd := "datetime_lt", graphqlType := "Time" }

/-- Static description of one metric (products/types.ts
`ProductDefinition`; presentation-only fields are omitted). -/
structure ProductDefinition where
  id : String
  name : String
  category : String
  defaultLimit : ℚ
  unit : String
  dataset : String
  field : String
  scope : ProductScope
  aggregation : Option AggregationType := none
  filterField : Option String := none
  enabledByDefault : Bool
  transform : Option (ℚ → ℚ) := none
  unlimited : Option Bool := none
  note : Option String := none

/-- User override for one product (products/types.ts `ProductConfig`). -/
structure ProductConfig where
  limit : Option ℚ := none
  enabled : Option Bool := none
  zoneTags : Option (List String) := none

/-- Runtime product configuration (products/types.ts `ProductRuntime`). -/
structure ProductRuntime extends ProductDefinition where
  limit : ℚ
  enabled : Bool
  zoneTags : Option (List String) := none

/-- `mergeProductConfig` (config.ts lines 88-99): `??` falls back to the
definition defaults; `zoneTags` falls back to the default zone tags only
for zone-scoped definitions. -/
def mergeProductConfig (definition : ProductDefinition) (override : Option ProductConfig)
    (defaultZoneTags : List String) : ProductRuntime :=
  { definition with
    limit := (override.bind (·.limit)).getD definition.defaultLimit
    enabled := (override.bind (·.enabled)).getD definition.enabledByDefault
    zoneTags := (override.bind (·.zoneTags)).orElse
      (fun _ => if definition.scope = .zone then some defaultZoneTags else none) }

/-- `getConfiguredProducts` (config.ts lines 104-111) with the registry
(`getAllProducts()`) and `CONTRACT_CONFIG.productOverrides` as explicit
parameters. -/
def getConfiguredProducts (registry : List ProductDefinition)
    (productOverrides : String → Option ProductConfig) (defaultZoneTags : List String) :
    List ProductRuntime :=
  registry.map (fun product =>
    mergeProductConfig product (productOverrides product.id) defaultZoneTags)

/-- `getEnabledProducts` (config.ts lines 116-121). -/
def getEnabledProducts (registry : List ProductDefinition)
    (productOverrides : String → Option ProductConfig) (defaultZoneTags : List String) :
    List ProductRuntime :=
  (getConfiguredProducts registry productOverrides defaultZoneTags).filter (·.enabled)

/-- Outcome of one `executeGraphQL` call: the promise rejected (`thrown`,
covering network failure and non-2xx), or a `GraphQLResponse` was returned,
whose optional `errors` array is collapsed to a possibly-empty message
list. -/
inductive QueryResult where
  | thrown (msg : String)
  | response (errors : List String) (data : JVal)

/-- A usage record (products/types.ts `ProductUsageResult`). -/
structure ProductUsageResult where
  productId : String
  productName : String
  category : String
  currentUsage : ℚ
  limit : ℚ
  unit : String
  percentUsed : ℚ
  billingPeriodStart : String
  billingPeriodEnd : String
  scope : ProductScope
  error : Option String := none
  queryDurationMs : Option ℚ := none
  note : Option String := none
  enabled : Option Bool := none
  unlimited : Option Bool := none
  confidence : Option ConfidenceInterval := none
deriving DecidableEq, Repr

/-- The transform application of `queryProductUsage` (storage.ts lines
1036-1039): `if (product.transform && result.currentUsage > 0)`. -/
def applyTransform (transform : Option (ℚ → ℚ)) (currentUsage : ℚ) : ℚ :=
  match transform with
  | some f => if currentUsage > 0 then f currentUsage else currentUsage
  | none => currentUsage

/-- The zone fan-out loop of `queryProductUsage` (storage.ts lines
992-1019), threading the partially built record and the confidence
accumulator.  A `thrown` response aborts the loop (`some msg`, the JS
exception propagating to the `catch`); a response with GraphQL errors is
only logged and the zone contributes nothing; otherwise the zone's
extracted value is added and its confidence folded in. -/
def zoneLoop (dataset field : String) (agg : AggregationType)
    (zoneResponses : String → QueryResult) :
    List String → ProductUsageResult × ConfAccum →
    (ProductUsageResult × ConfAccum) × Option String
  | [], st => (st, none)
  | zoneTag :: rest, st =>
    match zoneResponses zoneTag with
    | .thrown msg => (st, some msg)
    | .response errors data =>
      if errors.isEmpty then
        let extracted := extractValue data dataset field agg .zone
        let result := { st.1 with currentUsage := st.1.currentUsage + extracted.value }
        let acc :=
          match extracted.confidence with
          | some c => confStep st.2 c
          | none => st.2
        zoneLoop dataset field agg zoneResponses rest (result, acc)
      else
        zoneLoop dataset field agg zoneResponses rest st

/-- The record initialised at the top of `queryProductUsage`
(storage.ts lines 937-950). -/
def initialUsageResult (product : ProductRuntime) (billingStart billingEnd : JSDate) :
    ProductUsageResult :=
  { productId := product.id
    productName := product.name
    category := product.category
    currentUsage := 0
    limit := product.limit
    unit := product.unit
    percentUsed := 0
    billingPeriodStart := toISOString billingStart
    billingPeriodEnd := toISOString billingEnd
    scope := product.scope
    note := product.note
    unlimited := product.unlimited }

/-- `queryProductUsage` (storage.ts lines 927-1050).  The oracles
`accountResponse`/`zoneResponses` stand for `executeGraphQL` on the built
account/zone query (query building itself cannot throw); `duration` stands
for `Date.now() - startTime`.  The second component of the intermediate
pair records whether an exception reached the `catch` (lines 1043-1046), in
which case the transform and percent steps (lines 1036-1042) are skipped. -/
def queryProductUsage (product : ProductRuntime) (billingStart billingEnd : JSDate)
    (accountResponse : QueryResult) (zoneResponses : String → QueryResult)
    (duration : ℚ) : ProductUsageResult :=
  let result : ProductUsageResult := initialUsageResult product billingStart billingEnd
  let aggregation := product.aggregation.getD .sum
  let step :=
    if product.scope = .account then
      match accountResponse with
      | .thrown msg => (result, some msg)
      | .response errors data =>
        if errors.isEmpty then
          let extracted := extractValue data product.dataset product.field aggregation .account
          ({ result with
              currentUsage := extracted.value
              confidence := extracted.confidence }, none)
        else
          ({ result with error := some (String.intercalate ", " errors) }, none)
    else
      let zoneTags := product.zoneTags.getD []
      if zoneTags.isEmpty then
        ({ result with error := some "No zone tags configured" }, none)
      else
        let st := zoneLoop product.dataset product.field aggregation zoneResponses
          zoneTags (result, {})
        match st.2 with
        | some msg => (st.1.1, some msg)
        | none => ({ st.1.1 with confidence := finalizeConfidence st.1.2 }, none)
  match step.2 with
  | some msg =>
    { step.1 with error := some msg, queryDurationMs := some duration }
  | none =>
    let result := step.1
    let result :=
      { result with currentUsage := applyTransform product.transform result.currentUsage }
    let result :=
      { result with
        percentUsed :=
          if product.limit > 0 then result.currentUsage / product.limit * 100 else 0 }
    { result with queryDurationMs := some duration }

/-- `BATCH_SIZE = 5` (storage.ts lines 1065 and 1131). -/
def BATCH_SIZE : Nat := 5

/-- Consecutive batches of size `n` taken by the
`for (let i = 0; i < list.length; i += BATCH_SIZE)` loops. -/
def chunks (n : Nat) : List α → List (List α)
  | [] => []
  | x :: xs => ((x :: xs).take n) :: chunks n (xs.drop (n - 1))
termination_by l => l.length
decreasing_by simp [List.length_drop]; omega

/-- Lengths of the consecutive batches of size `n` of a list of length `m`
(`chunks` viewed through `List.length`). -/
def chunkLens (n : Nat) : Nat → List Nat
  | 0 => []
  | m + 1 => min n (m + 1) :: chunkLens n (m + 1 - max n 1)
termination_by m => m
decreasing_by omega

/-- `queryAllProductUsage` (storage.ts lines 1055-1082).  The per-product
oracles give each metric's account response, zone responses and measured
duration; the billing period is an explicit input (the source derives it
from `CONTRACT_CONFIG`).  The inter-batch delay only paces wall-clock time
and does not appear in the value model. -/
def queryAllProductUsage (registry : List ProductDefinition)
    (productOverrides : String → Option ProductConfig) (zoneTags : List String)
    (billingStart billingEnd : JSDate)
    (accountResponse : ProductRuntime → QueryResult)
    (zoneResponses : ProductRuntime → String → QueryResult)
    (durations : ProductRuntime → ℚ) : List ProductUsageResult :=
  let enabledProducts := getEnabledProducts registry productOverrides zoneTags
  ((chunks BATCH_SIZE enabledProducts).map (fun batch =>
    batch.map (fun product =>
      queryProductUsage product billingStart billingEnd (accountResponse product)
        (zoneResponses product) (durations product)))).flatten

/-- `CDN_ACCOUNT_PRODUCTS` (storage.ts line 1088). -/
def CDN_ACCOUNT_PRODUCTS : List String := ["http_requests", "bandwidth", "cached_bandwidth"]

/-- `CDN_ZONE_PRODUCTS` (storage.ts line 1089). -/
def CDN_ZONE_PRODUCTS : List String :=
  ["http_requests_zone", "bandwidth_zone", "cached_bandwidth_zone"]

/-- The placeholder record pushed for each disabled product by
`queryAllConfiguredProductUsage` (storage.ts lines 1148-1164); it is built
without issuing any query. -/
def disabledPlaceholder (product : ProductRuntime) (billingStart billingEnd : JSDate) :
    ProductUsageResult :=
  { productId := product.id
    productName := product.name
    category := product.category
    currentUsage := 0
    limit := product.limit
    percentUsed := 0
    unit := product.unit
    billingPeriodStart := toISOString billingStart
    billingPeriodEnd := toISOString billingEnd
    scope := product.scope
    queryDurationMs := some 0
    enabled := some false
    note := some "Product not enabled. Enable in CONTRACT_CONFIG.productOverrides to monitor." }

/-- The zone-filter suppression of `queryAllConfiguredProductUsage`
(storage.ts lines 1110-1124).  `zoneId` is `filters?.zoneId`; JS truthiness
makes an empty-string zone id behave like no zone filter. -/
def filteredConfiguredProducts (registry : List ProductDefinition)
    (productOverrides : String → Option ProductConfig) (zoneTags : List String)
    (zoneId : Option String) : List ProductRuntime :=
  let effectiveZoneTags :=
    match zoneId with
    | some z => if z = "" then zoneTags else [z]
    | none => zoneTags
  let allProducts := getConfiguredProducts registry productOverrides effectiveZoneTags
  let isZoneFiltered :=
    match zoneId with
    | some z => decide (z ≠ "")
    | none => false
  if isZoneFiltered then
    allProducts.filter (fun p =>
      decide (p.scope = ProductScope.zone) && !(CDN_ACCOUNT_PRODUCTS.contains p.id))
  else
    allProducts.filter (fun p => !(CDN_ZONE_PRODUCTS.contains p.id))

/-- `queryAllConfiguredProductUsage` (storage.ts lines 1101-1167): query
the enabled survivors in batches of 5, then append a placeholder for every
disabled survivor. -/
def queryAllConfiguredProductUsage (registry : List ProductDefinition)
    (productOverrides : String → Option ProductConfig) (zoneTags : List String)
    (zoneId : Option String) (billingStart billingEnd : JSDate)
    (accountResponse : ProductRuntime → QueryResult)
    (zoneResponses : ProductRuntime → String → QueryResult)
    (durations : ProductRuntime → ℚ) : List ProductUsageResult :=
  let filteredProducts := filteredConfiguredProducts registry productOverrides zoneTags zoneId
  let enabledProducts := filteredProducts.filter (·.enabled)
  let disabledProducts := filteredProducts.filter (fun p => !p.enabled)
  ((chunks BATCH_SIZE enabledProducts).map (fun batch =>
    batch.map (fun product =>
      queryProductUsage product billingStart billingEnd (accountResponse product)
        (zoneResponses product) (durations product)))).flatten
    ++ disabledProducts.map (fun product => disabledPlaceholder product billingStart billingEnd)

/-- Summary buckets (products/types.ts `UsageSummary`). -/
structure UsageSummary where
  alerts : List ProductUsageResult
  warnings : List ProductUsageResult
  healthy : List ProductUsageResult
  errors : List ProductUsageResult
  timestamp : String
  totalQueryDurationMs : ℚ
deriving DecidableEq, Repr

/-- JS truthiness of `result.error` (`if (result.error)` in
`categorizeUsage`): an absent error and an empty-string error are both
falsy. -/
def hasError (r : ProductUsageResult) : Bool :=
  match r.error with
  | some s => decide (s ≠ "")
  | none => false

/-- One iteration of the categorisation loop (storage.ts lines 1231-1241),
pushing the record onto exactly one bucket. -/
def categorizeStep (alertThreshold warningThreshold : ℚ) (summary : UsageSummary)
    (result : ProductUsageResult) : UsageSummary :=
  if hasError result then { summary with errors := summary.errors ++ [result] }
  else if result.percentUsed ≥ alertThreshold then
    { summary with alerts := summary.alerts ++ [result] }
  else if result.percentUsed ≥ warningThreshold then
    { summary with warnings := summary.warnings ++ [result] }
  else { summary with healthy := summary.healthy ++ [result] }

/-- The descending-by-`percentUsed` comparison of the
`(a, b) => b.percentUsed - a.percentUsed` sort comparator. -/
def percentDesc (a b : ProductUsageResult) : Bool :=
  decide (b.percentUsed ≤ a.percentUsed)

/-- `categorizeUsage` (storage.ts lines 1217-1248); `timestamp` stands for
`new Date().toISOString()`. -/
def categorizeUsage (results : List ProductUsageResult)
    (alertThreshold warningThreshold : ℚ) (timestamp : String) : UsageSummary :=
  let summary : UsageSummary :=
    { alerts := []
      warnings := []
      healthy := []
      errors := []
      timestamp := timestamp
      totalQueryDurationMs := results.foldl (fun s r => s + r.queryDurationMs.getD 0) 0 }
  let summary := results.foldl (categorizeStep alertThreshold warningThreshold) summary
  { summary with
    alerts := summary.alerts.mergeSort percentDesc
    warnings := summary.warnings.mergeSort percentDesc }

/-- The usage value a zone partition contributes in the fan-out: the
extracted value on a clean response, zero when the zone's query returned
GraphQL errors or threw. -/
def zoneContribution (dataset field : String) (agg : AggregationType)
    (zoneResponses : String → QueryResult) (zoneTag : String) : ℚ :=
  match zoneResponses zoneTag with
  | .thrown _ => 0
  | .response errors data =>
    if errors.isEmpty then (extractValue data dataset field agg .zone).value else 0

/-- The confidence intervals the zone partitions contribute, in fan-out
order (thrown or errored zones contribute none). -/
def zoneConfidences (dataset field : String) (agg : AggregationType)
    (zoneResponses : String → QueryResult) (zoneTags : List String) :
    List ConfidenceInterval :=
  zoneTags.filterMap (fun zoneTag =>
    match zoneResponses zoneTag with
    | .thrown _ => none
    | .response errors data =>
      if errors.isEmpty then (extractValue data dataset field agg .zone).confidence else none)

/-- No query issued for this product throws: account-scoped products need a
non-thrown account response, zone-scoped ones non-thrown responses on every
configured zone tag. -/
def noThrownResponses (product : ProductRuntime) (accountResponse : QueryResult)
    (zoneResponses : String → QueryResult) : Prop :=
  (product.scope = .account → ∀ msg, accountResponse ≠ .thrown msg) ∧
  (product.scope = .zone →
    ∀ zoneTag ∈ product.zoneTags.getD [], ∀ msg, zoneResponses zoneTag ≠ .thrown msg)

/-- A payload of the shape the GraphQL API returns on success:
`{ viewer: { <scope>: [ { <dataset>: [rows] } ] } }`. -/
def mkPayload (scope : ProductScope) (dataset : String) (rows : List JVal) : JVal :=
  .obj [("viewer", .obj [(scopeKey scope, .arr [.obj [(dataset, .arr rows)]])])]

/-- A result row carrying a summed field value, as
`{ sum: { <field>: v } }`. -/
def sumRow (field : String) (v : ℚ) : JVal :=
  .obj [("sum", .obj [(field, .num v)])]

/-- The record-is-an-alert test, as decided by the categorisation loop. -/
def alertPred (alertThreshold : ℚ) (r : ProductUsageResult) : Bool :=
  !hasError r && decide (r.percentUsed ≥ alertThreshold)

/-- The record-is-a-warning test, as decided by the categorisation loop. -/
def warnPred (alertThreshold warningThreshold : ℚ) (r : ProductUsageResult) : Bool :=
  !hasError r && !decide (r.percentUsed ≥ alertThreshold) &&
    decide (r.percentUsed ≥ warningThreshold)

/-- The record-is-healthy test, as decided by the categorisation loop. -/
def healthyPred (alertThreshold warningThreshold : ℚ) (r : ProductUsageResult) : Bool :=
  !hasError r && !decide (r.percentUsed ≥ alertThreshold) &&
    !decide (r.percentUsed ≥ warningThreshold)

/-! Concrete fixtures used by counterexamples and witnesses. -/

/-- A concrete billing-period start. -/
def bs0 : JSDate := { year := 2024, month := 3, day := 1, hour := 0, minute := 0, second := 0, ms := 0 }

/-- A concrete billing-period end. -/
def be0 : JSDate := { year := 2024, month := 4, day := 1, hour := 0, minute := 0, second := 0, ms := 0 }

/-- A concrete zone-scoped runtime product with two configured zones. -/
def zoneProductA : ProductRuntime :=
  { id := "http_requests_zone"
    name := "HTTP Requests"
    category := "network"
    defaultLimit := 1000
    unit := "requests"
    dataset := "httpRequestsAdaptiveGroups"
    field := "requests"
    scope := .zone
    enabledByDefault := true
    limit := 1000
    enabled := true
    zoneTags := some ["Z1", "Z2"] }

/-- Zone oracle where Z1 cleanly reports 100 and Z2 throws. -/
def zrZ2Throws : String → QueryResult := fun zoneTag =>
  if zoneTag = "Z1" then
    .response [] (mkPayload .zone "httpRequestsAdaptiveGroups" [sumRow "requests" 100])
  else .thrown "boom"

/-- Zone oracle where Z1 cleanly reports 100 and Z2 answers with a
GraphQL-level error. -/
def zrZ2Errors : String → QueryResult := fun zoneTag =>
  if zoneTag = "Z1" then
    .response [] (mkPayload .zone "httpRequestsAdaptiveGroups" [sumRow "requests" 100])
  else .response ["dataset unavailable"] .null

/-- A concrete zone-scoped metric definition used to drive the batched
runner. -/
def zoneDefB : ProductDefinition :=
  { id := "bandwidth_zone"
    name := "Bandwidth"
    category := "network"
    defaultLimit := 4000
    unit := "bytes"
    dataset := "httpRequestsAdaptiveGroups"
    field := "edgeResponseBytes"
    scope := .zone
    enabledByDefault := true }

/-- Zone oracle where W1 cleanly reports 200 and W2 throws. -/
def zrW2Throws : String → QueryResult := fun zoneTag =>
  if zoneTag = "W1" then
    .response [] (mkPayload .zone "httpRequestsAdaptiveGroups" [sumRow "edgeResponseBytes" 200])
  else .thrown "crash"

/-- A concrete account-scoped runtime product flagged unlimited but with a
positive limit. -/
def unlimitedProductB : ProductRuntime :=
  { id := "gateway_dns_queries"
    name := "Gateway DNS Queries"
    category := "connectivity"
    defaultLimit := 100
    unit := "queries"
    dataset := "gatewayResolverQueriesAdaptiveGroups"
    field := "f"
    scope := .account
    enabledByDefault := true
    unlimited := some true
    limit := 100
    enabled := true }

/-- A confidence sample whose estimate is zero. -/
def confZeroEstimate : ConfidenceInterval :=
  { estimate := 0, lower := 0, upper := 0, sampleSize := 10, isValid := true, level := 0.95 }

/-- A confidence sample at level 0.95. -/
def confLevelHi : ConfidenceInterval :=
  { estimate := 4, lower := 3, upper := 5, sampleSize := 7, isValid := true, level := 0.95 }

/-- A confidence sample at level 0.9. -/
def confLevelLo : ConfidenceInterval :=
  { estimate := 6, lower := 5, upper := 7, sampleSize := 9, isValid := true, level := 0.9 }

/-- A concrete instant that is not on an hour boundary. -/
def dateMidHour : JSDate :=
  { year := 2024, month := 3, day := 15, hour := 12, minute := 34, second := 56, ms := 0 }

/-! Helper lemmas. -/

lemma applyTransform_zero (t : Option (ℚ → ℚ)) : applyTransform t 0 = 0 := by
  cases t <;> simp [applyTransform]

lemma chunks_cons (n : Nat) (x : α) (xs : List α) :
    chunks n (x :: xs) = ((x :: xs).take n) :: chunks n (xs.drop (n - 1)) := by
  rw [chunks]

lemma chunks_flatten (n : Nat) (hn : 0 < n) (l : List α) : (chunks n l).flatten = l := by
  generalize hm : l.length = m
  induction m using Nat.strong_induction_on generalizing l with
  | _ m ih =>
    cases l with
    | nil => simp [chunks]
    | cons x xs =>
      have hm' : xs.length + 1 = m := by simpa using hm
      rw [chunks_cons, List.flatten_cons]
      rw [ih (xs.drop (n - 1)).length (by simp [List.length_drop]; omega) _ rfl]
      have h1 : xs.drop (n - 1) = (x :: xs).drop n := by
        cases n with
        | zero => omega
        | succ k => simp
      rw [h1, List.take_append_drop]

lemma chunks_map_length (n : Nat) (hn : 0 < n) (l : List α) :
    (chunks n l).map List.length = chunkLens n l.length := by
  generalize hm : l.length = m
  induction m using Nat.strong_induction_on generalizing l with
  | _ m ih =>
    cases l with
    | nil =>
      simp only [List.length_nil] at hm
      subst hm
      simp [chunks, chunkLens]
    | cons x xs =>
      simp only [List.length_cons] at hm
      subst hm
      rw [chunks_cons, List.map_cons,
        ih (xs.drop (n - 1)).length (by simp [List.length_drop]; omega) _ rfl,
        List.length_drop, chunkLens]
      have h2 : xs.length - (n - 1) = xs.length + 1 - max n 1 := by omega
      rw [h2]
      simp [List.length_take]

lemma chunkLens_le (n m k : Nat) (hk : k ∈ chunkLens n m) : k ≤ n := by
  induction m using Nat.strong_induction_on generalizing k with
  | _ m ih =>
    cases m with
    | zero => simp [chunkLens] at hk
    | succ mm =>
      rw [chunkLens] at hk
      rcases List.mem_cons.mp hk with h | h
      · subst h; omega
      · exact ih _ (by omega) _ h

lemma chunks_sizes_le (n : Nat) (hn : 0 < n) (l : List α) (c : List α)
    (hc : c ∈ chunks n l) : c.length ≤ n := by
  have h1 : c.length ∈ (chunks n l).map List.length := List.mem_map_of_mem _ hc
  rw [chunks_map_length n hn] at h1
  exact chunkLens_le n _ _ h1

lemma foldl_confStep (cs : List ConfidenceInterval) (acc : ConfAccum) :
    cs.foldl confStep acc =
      { totalEstimate := acc.totalEstimate + (cs.map (·.estimate)).sum
        totalLower := acc.totalLower + (cs.map (·.lower)).sum
        totalUpper := acc.totalUpper + (cs.map (·.upper)).sum
        totalSampleSize := acc.totalSampleSize + (cs.map (·.sampleSize)).sum
        hasConfidence := acc.hasConfidence || !cs.isEmpty
        confidenceLevel := (cs.map (·.level)).getLastD acc.confidenceLevel
        allValid := acc.allValid && cs.all (·.isValid) } := by
  induction cs generalizing acc with
  | nil => simp
  | cons c rest ih =>
    simp only [List.foldl_cons, List.map_cons, List.sum_cons, List.all_cons,
      List.getLastD_cons, List.isEmpty_cons]
    rw [ih]
    simp only [confStep]
    congr 1 <;> try ring
    · simp
    · cases hv : c.isValid <;> simp [hv]

lemma getLastD_map_const {β : Type _} (f : β → ℚ) (L d : ℚ) (l : List β)
    (h : ∀ x ∈ l, f x = L) (hne : l ≠ []) : (l.map f).getLastD d = L := by
  induction l generalizing d with
  | nil => exact absurd rfl hne
  | cons x xs ih =>
    rw [List.map_cons, List.getLastD_cons]
    cases xs with
    | nil => simpa using h x (by simp)
    | cons y ys =>
      exact ih (f x) (fun z hz => h z (List.mem_cons_of_mem _ hz)) (by simp)

lemma zoneConfidences_cons_thrown (d f : String) (a : AggregationType)
    (zr : String → QueryResult) (t : String) (rest : List String) (msg : String)
    (hzr : zr t = .thrown msg) :
    zoneConfidences d f a zr (t :: rest) = zoneConfidences d f a zr rest := by
  simp only [zoneConfidences, List.filterMap_cons, hzr]

lemma zoneConfidences_cons_errors (d f : String) (a : AggregationType)
    (zr : String → QueryResult) (t : String) (rest : List String)
    (errors : List String) (data : JVal)
    (hzr : zr t = .response errors data) (he : errors.isEmpty = false) :
    zoneConfidences d f a zr (t :: rest) = zoneConfidences d f a zr rest := by
  simp only [zoneConfidences, List.filterMap_cons, hzr, he]
  simp

lemma zoneConfidences_cons_ok (d f : String) (a : AggregationType)
    (zr : String → QueryResult) (t : String) (rest : List String)
    (errors : List String) (data : JVal)
    (hzr : zr t = .response errors data) (he : errors.isEmpty = true) :
    zoneConfidences d f a zr (t :: rest) =
      match (extractValue data d f a .zone).confidence with
      | some c => c :: zoneConfidences d f a zr rest
      | none => zoneConfidences d f a zr rest := by
  simp only [zoneConfidences, List.filterMap_cons, hzr, he]
  cases (extractValue data d f a .zone).confidence <;> simp

lemma usageResult_cu_cu (r : ProductUsageResult) (x y : ℚ) :
    ({ ({ r with currentUsage := x }) with currentUsage := y } : ProductUsageResult) =
      { r with currentUsage := y } := rfl

lemma usageResult_cu_self (r : ProductUsageResult) :
    ({ r with currentUsage := r.currentUsage } : ProductUsageResult) = r := rfl

lemma zoneLoop_no_thrown (d f : String) (a : AggregationType) (zr : String → QueryResult)
    (tags : List String) (st : ProductUsageResult × ConfAccum)
    (h : ∀ t ∈ tags, ∀ msg, zr t ≠ .thrown msg) :
    zoneLoop d f a zr tags st =
      (({ st.1 with currentUsage :=
            st.1.currentUsage + (tags.map (zoneContribution d f a zr)).sum },
        (zoneConfidences d f a zr tags).foldl confStep st.2), none) := by
  induction tags generalizing st with
  | nil =>
    simp only [zoneLoop, zoneConfidences, List.filterMap_nil, List.map_nil, List.sum_nil,
      List.foldl_nil, add_zero, usageResult_cu_self]
  | cons t rest ih =>
    have ht := h t (by simp)
    cases hzr : zr t with
    | thrown msg => exact absurd hzr (ht msg)
    | response errors data =>
      rw [zoneLoop]
      simp only [hzr]
      cases he : errors.isEmpty with
      | true =>
        simp only [he, if_true]
        rw [ih _ (fun z hz msg => h z (by simp [hz]) msg)]
        have hcontrib : zoneContribution d f a zr t =
            (extractValue data d f a .zone).value := by
          simp [zoneContribution, hzr, he]
        rw [zoneConfidences_cons_ok d f a zr t rest errors data hzr he]
        cases hco : (extractValue data d f a .zone).confidence with
        | none =>
          simp only [hco, List.map_cons, List.sum_cons, hcontrib, usageResult_cu_cu]
          congr 3
          simp [add_assoc]
        | some c =>
          simp only [hco, List.map_cons, List.sum_cons, hcontrib, List.foldl_cons,
            usageResult_cu_cu]
          congr 3
          simp [add_assoc]
      | false =>
        simp only [Bool.false_eq_true, if_false]
        rw [ih _ (fun z hz msg => h z (by simp [hz]) msg)]
        have hcontrib : zoneContribution d f a zr t = 0 := by
          simp [zoneContribution, hzr, he]
        rw [zoneConfidences_cons_errors d f a zr t rest errors data hzr he]
        simp [hcontrib]

lemma zoneLoop_thrown (d f : String) (a : AggregationType) (zr : String → QueryResult)
    (pre : List String) (t : String) (post : List String) (msg : String)
    (st : ProductUsageResult × ConfAccum)
    (hpre : ∀ z ∈ pre, ∀ m, zr z ≠ .thrown m) (ht : zr t = .thrown msg) :
    zoneLoop d f a zr (pre ++ t :: post) st =
      (({ st.1 with currentUsage :=
            st.1.currentUsage + (pre.map (zoneContribution d f a zr)).sum },
        (zoneConfidences d f a zr pre).foldl confStep st.2), some msg) := by
  induction pre generalizing st with
  | nil =>
    rw [List.nil_append, zoneLoop]
    simp only [ht, zoneConfidences, List.filterMap_nil, List.map_nil, List.sum_nil,
      List.foldl_nil, add_zero, usageResult_cu_self]
  | cons z rest ih =>
    have hz := hpre z (by simp)
    cases hzr : zr z with
    | thrown m => exact absurd hzr (hz m)
    | response errors data =>
      rw [List.cons_append, zoneLoop]
      simp only [hzr]
      cases he : errors.isEmpty with
      | true =>
        simp only [he, if_true]
        rw [ih _ (fun w hw m => hpre w (by simp [hw]) m)]
        have hcontrib : zoneContribution d f a zr z =
            (extractValue data d f a .zone).value := by
          simp [zoneContribution, hzr, he]
        rw [zoneConfidences_cons_ok d f a zr z rest errors data hzr he]
        cases hco : (extractValue data d f a .zone).confidence with
        | none =>
          simp only [hco, List.map_cons, List.sum_cons, hcontrib, usageResult_cu_cu]
          congr 3
          simp [add_assoc]
        | some c =>
          simp only [hco, List.map_cons, List.sum_cons, hcontrib, List.foldl_cons,
            usageResult_cu_cu]
          congr 3
          simp [add_assoc]
      | false =>
        simp only [Bool.false_eq_true, if_false]
        rw [ih _ (fun w hw m => hpre w (by simp [hw]) m)]
        have hcontrib : zoneContribution d f a zr z = 0 := by
          simp [zoneContribution, hzr, he]
        rw [zoneConfidences_cons_errors d f a zr z rest errors data hzr he]
        simp [hcontrib]

lemma initialUsageResult_currentUsage (p : ProductRuntime) (bs be : JSDate) :
    (initialUsageResult p bs be).currentUsage = 0 := rfl

lemma initialUsageResult_percentUsed (p : ProductRuntime) (bs be : JSDate) :
    (initialUsageResult p bs be).percentUsed = 0 := rfl

lemma initialUsageResult_error (p : ProductRuntime) (bs be : JSDate) :
    (initialUsageResult p bs be).error = none := rfl

lemma initialUsageResult_confidence (p : ProductRuntime) (bs be : JSDate) :
    (initialUsageResult p bs be).confidence = none := rfl

lemma initialUsageResult_limit (p : ProductRuntime) (bs be : JSDate) :
    (initialUsageResult p bs be).limit = p.limit := rfl

lemma queryProductUsage_account_thrown (p : ProductRuntime) (bs be : JSDate)
    (zr : String → QueryResult) (dur : ℚ) (msg : String) (h : p.scope = .account) :
    queryProductUsage p bs be (.thrown msg) zr dur =
      { initialUsageResult p bs be with error := some msg, queryDurationMs := some dur } := by
  simp [queryProductUsage, h]

lemma queryProductUsage_account_response (p : ProductRuntime) (bs be : JSDate)
    (errors : List String) (data : JVal) (zr : String → QueryResult) (dur : ℚ)
    (h : p.scope = .account) :
    queryProductUsage p bs be (.response errors data) zr dur =
      (if errors.isEmpty then
        let extracted := extractValue data p.dataset p.field (p.aggregation.getD .sum) .account
        let usage := applyTransform p.transform extracted.value
        { initialUsageResult p bs be with
          currentUsage := usage
          confidence := extracted.confidence
          percentUsed := if p.limit > 0 then usage / p.limit * 100 else 0
          queryDurationMs := some dur }
      else
        { initialUsageResult p bs be with
          error := some (String.intercalate ", " errors)
          queryDurationMs := some dur }) := by
  cases he : errors.isEmpty with
  | true =>
    simp only [he, if_true]
    simp [queryProductUsage, h, he]
  | false =>
    simp only [Bool.false_eq_true, if_false]
    simp [queryProductUsage, h, he, applyTransform_zero, initialUsageResult_currentUsage,
      initialUsageResult_percentUsed]

lemma queryProductUsage_zone_noTags (p : ProductRuntime) (bs be : JSDate)
    (ar : QueryResult) (zr : String → QueryResult) (dur : ℚ)
    (h : p.scope = .zone) (h2 : p.zoneTags.getD [] = []) :
    queryProductUsage p bs be ar zr dur =
      { initialUsageResult p bs be with
        error := some "No zone tags configured", queryDurationMs := some dur } := by
  simp [queryProductUsage, h, h2, applyTransform_zero, initialUsageResult_currentUsage,
    initialUsageResult_percentUsed]

lemma queryProductUsage_zone_ok (p : ProductRuntime) (bs be : JSDate)
    (ar : QueryResult) (zr : String → QueryResult) (dur : ℚ)
    (h : p.scope = .zone) (hne : p.zoneTags.getD [] ≠ [])
    (hnothrow : ∀ t ∈ p.zoneTags.getD [], ∀ msg, zr t ≠ .thrown msg) :
    queryProductUsage p bs be ar zr dur =
      (let tags := p.zoneTags.getD []
       let agg := p.aggregation.getD .sum
       let usage :=
         applyTransform p.transform ((tags.map (zoneContribution p.dataset p.field agg zr)).sum)
       { initialUsageResult p bs be with
         currentUsage := usage
         confidence := combineConfidence (zoneConfidences p.dataset p.field agg zr tags)
         percentUsed := if p.limit > 0 then usage / p.limit * 100 else 0
         queryDurationMs := some dur }) := by
  have hie : (p.zoneTags.getD []).isEmpty = false := by
    simpa [List.isEmpty_eq_false] using hne
  simp only [queryProductUsage, h]
  rw [zoneLoop_no_thrown _ _ _ _ _ _ hnothrow]
  simp [hie, combineConfidence, initialUsageResult_currentUsage]

lemma queryProductUsage_zone_thrown (p : ProductRuntime) (bs be : JSDate)
    (ar : QueryResult) (zr : String → QueryResult) (dur : ℚ)
    (pre : List String) (t : String) (post : List String) (msg : String)
    (h : p.scope = .zone) (hdecomp : p.zoneTags.getD [] = pre ++ t :: post)
    (hpre : ∀ z ∈ pre, ∀ m, zr z ≠ .thrown m) (ht : zr t = .thrown msg) :
    queryProductUsage p bs be ar zr dur =
      { initialUsageResult p bs be with
        currentUsage :=
          (pre.map (zoneContribution p.dataset p.field (p.aggregation.getD .sum) zr)).sum
        error := some msg
        queryDurationMs := some dur } := by
  have hie : (p.zoneTags.getD []).isEmpty = false := by
    simp [List.isEmpty_eq_false, hdecomp]
  simp only [queryProductUsage, h]
  rw [hdecomp]
  rw [zoneLoop_thrown _ _ _ _ _ _ _ _ _ hpre ht]
  simp [hie, hdecomp, initialUsageResult_currentUsage]

lemma categorizeFold_errors (a w : ℚ) (results : List ProductUsageResult)
    (s : UsageSummary) :
    (results.foldl (categorizeStep a w) s).errors = s.errors ++ results.filter hasError := by
  induction results generalizing s with
  | nil => simp
  | cons r rs ih =>
    rw [List.foldl_cons, List.filter_cons, ih]
    by_cases h1 : hasError r
    · simp [categorizeStep, h1]
    · by_cases h2 : r.percentUsed ≥ a
      · simp [categorizeStep, h1, h2]
      · by_cases h3 : r.percentUsed ≥ w
        · simp [categorizeStep, h1, h2, h3]
        · simp [categorizeStep, h1, h2, h3]

lemma categorizeFold_alerts (a w : ℚ) (results : List ProductUsageResult)
    (s : UsageSummary) :
    (results.foldl (categorizeStep a w) s).alerts = s.alerts ++ results.filter (alertPred a) := by
  induction results generalizing s with
  | nil => simp
  | cons r rs ih =>
    rw [List.foldl_cons, List.filter_cons, ih]
    by_cases h1 : hasError r
    · simp [categorizeStep, h1, alertPred]
    · by_cases h2 : r.percentUsed ≥ a
      · simp [categorizeStep, h1, h2, alertPred]
      · by_cases h3 : r.percentUsed ≥ w
        · simp [categorizeStep, h1, h2, h3, alertPred]
        · simp [categorizeStep, h1, h2, h3, alertPred]

lemma categorizeFold_warnings (a w : ℚ) (results : List ProductUsageResult)
    (s : UsageSummary) :
    (results.foldl (categorizeStep a w) s).warnings =
      s.warnings ++ results.filter (warnPred a w) := by
  induction results generalizing s with
  | nil => simp
  | cons r rs ih =>
    rw [List.foldl_cons, List.filter_cons, ih]
    by_cases h1 : hasError r
    · simp [categorizeStep, h1, warnPred]
    · by_cases h2 : r.percentUsed ≥ a
      · simp [categorizeStep, h1, h2, warnPred]
      · by_cases h3 : r.percentUsed ≥ w
        · simp [categorizeStep, h1, h2, h3, warnPred]
        · simp [categorizeStep, h1, h2, h3, warnPred]

lemma categorizeFold_healthy (a w : ℚ) (results : List ProductUsageResult)
    (s : UsageSummary) :
    (results.foldl (categorizeStep a w) s).healthy =
      s.healthy ++ results.filter (healthyPred a w) := by
  induction results generalizing s with
  | nil => simp
  | cons r rs ih =>
    rw [List.foldl_cons, List.filter_cons, ih]
    by_cases h1 : hasError r
    · simp [categorizeStep, h1, healthyPred]
    · by_cases h2 : r.percentUsed ≥ a
      · simp [categorizeStep, h1, h2, healthyPred]
      · by_cases h3 : r.percentUsed ≥ w
        · simp [categorizeStep, h1, h2, h3, healthyPred]
        · simp [categorizeStep, h1, h2, h3, healthyPred]

lemma categorize_filter_partition (a w : ℚ) (results : List ProductUsageResult) :
    (results.filter (alertPred a)).length + (results.filter (warnPred a w)).length +
      (results.filter (healthyPred a w)).length + (results.filter hasError).length =
      results.length := by
  induction results with
  | nil => simp
  | cons r rs ih =>
    simp only [List.filter_cons, List.length_cons]
    by_cases h1 : hasError r
    · simp [alertPred, warnPred, healthyPred, h1]
      omega
    · by_cases h2 : r.percentUsed ≥ a
      · simp [alertPred, warnPred, healthyPred, h1, h2]
        omega
      · by_cases h3 : r.percentUsed ≥ w
        · simp [alertPred, warnPred, healthyPred, h1, h2, h3]
          omega
        · simp [alertPred, warnPred, healthyPred, h1, h2, h3]
          omega

lemma percentDesc_trans (x y z : ProductUsageResult) (h1 : percentDesc x y = true)
    (h2 : percentDesc y z = true) : percentDesc x z = true := by
  simp only [percentDesc, decide_eq_true_iff] at h1 h2 ⊢
  exact h2.trans h1

lemma percentDesc_total (x y : ProductUsageResult) :
    (percentDesc x y || percentDesc y x) = true := by
  simp only [percentDesc, Bool.or_eq_true, decide_eq_true_iff]
  exact le_total y.percentUsed x.percentUsed

lemma exists_thrown_decomp (zr : String → QueryResult) (tags : List String) :
    (∀ t ∈ tags, ∀ msg, zr t ≠ .thrown msg) ∨
      ∃ pre t post msg, tags = pre ++ t :: post ∧
        (∀ z ∈ pre, ∀ m, zr z ≠ .thrown m) ∧ zr t = .thrown msg := by
  induction tags with
  | nil => exact Or.inl (by simp)
  | cons t rest ih =>
    cases hzr : zr t with
    | thrown msg => exact Or.inr ⟨[], t, rest, msg, by simp, by simp, hzr⟩
    | response errors data =>
      rcases ih with h | ⟨pre, u, post, msg, hdec, hpre, hu⟩
      · refine Or.inl ?_
        intro z hz m
        rcases List.mem_cons.mp hz with rfl | hz'
        · simp [hzr]
        · exact h z hz' m
      · refine Or.inr ⟨t :: pre, u, post, msg, by simp [hdec], ?_, hu⟩
        intro z hz m
        rcases List.mem_cons.mp hz with rfl | hz'
        · simp [hzr]
        · exact hpre z hz' m

lemma all_perm_congr (p : ConfidenceInterval → Bool) (l₁ l₂ : List ConfidenceInterval)
    (hp : l₁.Perm l₂) : l₁.all p = l₂.all p := by
  cases h1 : l₁.all p with
  | true =>
    have := List.all_eq_true.mp h1
    exact (List.all_eq_true.mpr (fun x hx => this x (hp.mem_iff.mpr hx))).symm
  | false =>
    cases h2 : l₂.all p with
    | true =>
      have := List.all_eq_true.mp h2
      have h1' := List.all_eq_true.mpr (fun x hx => this x (hp.mem_iff.mp hx))
      rw [h1'] at h1
      cases h1
    | false => rfl

lemma getField_singleton (k : String) (v : JVal) :
    (JVal.obj [(k, v)]).getField? k = some v := by
  simp [JVal.getField?]

lemma getField_singleton_ne (k key : String) (v : JVal) (h : k ≠ key) :
    (JVal.obj [(k, v)]).getField? key = none := by
  simp [JVal.getField?, h]

lemma foldl_rows_fst (a : AggregationType) (f : String) (rows : List JVal)
    (q : ℚ) (acc : ConfAccum) :
    (rows.foldl
      (fun (st : ℚ × ConfAccum) item =>
        (st.1 + rowValue a f item, extractRowConfidence a f st.2 item)) (q, acc)).1 =
      q + (rows.map (rowValue a f)).sum := by
  induction rows generalizing q acc with
  | nil => simp
  | cons r rs ih =>
    simp only [List.foldl_cons, List.map_cons, List.sum_cons]
    rw [ih]
    ring

lemma foldl_rows_snd (a : AggregationType) (f : String) (rows : List JVal)
    (q : ℚ) (acc : ConfAccum) :
    (rows.foldl
      (fun (st : ℚ × ConfAccum) item =>
        (st.1 + rowValue a f item, extractRowConfidence a f st.2 item)) (q, acc)).2 =
      rows.foldl (extractRowConfidence a f) acc := by
  induction rows generalizing q acc with
  | nil => simp
  | cons r rs ih => simp only [List.foldl_cons]; rw [ih]

lemma extractValueCore_mkPayload (s : ProductScope) (dataset f : String)
    (a : AggregationType) (rows : List JVal) (hr : rows ≠ []) :
    extractValueCore (mkPayload s dataset rows) dataset f a s =
      some { value := (rows.map (rowValue a f)).sum,
             confidence := finalizeConfidence (rows.foldl (extractRowConfidence a f) {}) } := by
  have hie : rows.isEmpty = false := by simpa [List.isEmpty_eq_false] using hr
  simp [extractValueCore, mkPayload, getField_singleton, JVal.asArr?, hie,
    foldl_rows_fst, foldl_rows_snd]

lemma extractValue_mkPayload_value (s : ProductScope) (dataset f : String)
    (a : AggregationType) (rows : List JVal) :
    (extractValue (mkPayload s dataset rows) dataset f a s).value =
      (rows.map (rowValue a f)).sum := by
  cases rows with
  | nil =>
    simp [extractValue, extractValueCore, mkPayload, getField_singleton, JVal.asArr?]
  | cons r rs =>
    rw [extractValue, extractValueCore_mkPayload s dataset f a (r :: rs) (by simp)]
    simp

lemma extractValue_mkPayload_nil (s : ProductScope) (dataset f : String)
    (a : AggregationType) :
    extractValue (mkPayload s dataset []) dataset f a s = { value := 0, confidence := none } := by
  simp [extractValue, extractValueCore, mkPayload, getField_singleton, JVal.asArr?]

lemma extractValue_emptyScope (s : ProductScope) (dataset f : String) (a : AggregationType) :
    extractValue (JVal.obj [("viewer", JVal.obj [(scopeKey s, JVal.arr [])])]) dataset f a s =
      { value := 0, confidence := none } := by
  simp [extractValue, extractValueCore, getField_singleton, JVal.asArr?]

lemma extractValue_missingDataset (s : ProductScope) (k dataset f : String)
    (a : AggregationType) (rows : List JVal) (hk : k ≠ dataset) :
    extractValue (mkPayload s k rows) dataset f a s = { value := 0, confidence := none } := by
  simp [extractValue, extractValueCore, mkPayload, getField_singleton,
    getField_singleton_ne k dataset _ hk, JVal.asArr?]

lemma extractValue_null (dataset f : String) (a : AggregationType) (s : ProductScope) :
    extractValue JVal.null dataset f a s = { value := 0, confidence := none } := by
  simp [extractValue, extractValueCore, JVal.getField?]

lemma digitChar_ne_T (n : Nat) : digitChar n ≠ 'T' := by
  unfold digitChar
  have h : n % 10 < 10 := Nat.mod_lt _ (by norm_num)
  generalize hm : n % 10 = m at h
  interval_cases m <;> decide

lemma pad2_chars (n : Nat) (c : Char) (hc : c ∈ pad2 n) : ∃ k, c = digitChar k := by
  simp only [pad2, List.mem_cons, List.not_mem_nil, or_false] at hc
  rcases hc with rfl | rfl
  · exact ⟨n / 10, rfl⟩
  · exact ⟨n, rfl⟩

lemma pad4_chars (n : Nat) (c : Char) (hc : c ∈ pad4 n) : ∃ k, c = digitChar k := by
  simp only [pad4, List.mem_cons, List.not_mem_nil, or_false] at hc
  rcases hc with rfl | rfl | rfl | rfl
  · exact ⟨n / 1000, rfl⟩
  · exact ⟨n / 100, rfl⟩
  · exact ⟨n / 10, rfl⟩
  · exact ⟨n, rfl⟩

lemma isoDateChars_no_T (d : JSDate) : ∀ c ∈ isoDateChars d, c ≠ 'T' := by
  intro c hc
  simp only [isoDateChars] at hc
  rcases List.mem_append.mp hc with h | h
  · rcases List.mem_append.mp h with h | h
    · obtain ⟨k, rfl⟩ := pad4_chars _ _ h
      exact digitChar_ne_T k
    · rcases List.mem_cons.mp h with rfl | h
      · decide
      · obtain ⟨k, rfl⟩ := pad2_chars _ _ h
        exact digitChar_ne_T k
  · rcases List.mem_cons.mp h with rfl | h
    · decide
    · obtain ⟨k, rfl⟩ := pad2_chars _ _ h
      exact digitChar_ne_T k

lemma takeBeforeChar_append (c : Char) (l1 l2 : List Char) (h : ∀ x ∈ l1, x ≠ c) :
    takeBeforeChar c (l1 ++ c :: l2) = l1 := by
  induction l1 with
  | nil => simp [takeBeforeChar]
  | cons x xs ih =>
    rw [List.cons_append, takeBeforeChar]
    rw [if_neg (h x (by simp))]
    rw [ih (fun y hy => h y (by simp [hy]))]

lemma data_mk (l : List Char) : (String.mk l).data = l := rfl

lemma formatDateForQuery_date (d : JSDate) :
    formatDateForQuery d "date" = String.mk (isoDateChars d) := by
  have h1 : (toISOString d).data = isoDateChars d ++ 'T' :: (isoTimeChars d ++ ['Z']) := rfl
  rw [formatDateForQuery, if_pos rfl, h1,
    takeBeforeChar_append 'T' (isoDateChars d) _ (isoDateChars_no_T d)]

lemma formatDateForQuery_other (d : JSDate) (ff : String) (h : ff ≠ "date") :
    formatDateForQuery d ff = toISOString d := by
  simp [formatDateForQuery, h]

lemma finalizeConfidence_eq_none_iff (acc : ConfAccum) :
    finalizeConfidence acc = none ↔ acc.hasConfidence = false ∨ acc.totalEstimate ≤ 0 := by
  unfold finalizeConfidence
  cases hc : acc.hasConfidence with
  | false => simp [hc]
  | true =>
    by_cases hp : acc.totalEstimate > 0
    · simp [hp, hc]
    · simp [hp, hc, not_lt.mp hp]

lemma length_filter_partition {α : Type _} (p : α → Bool) (l : List α) :
    (l.filter p).length + (l.filter (fun x => !p x)).length = l.length := by
  induction l with
  | nil => rfl
  | cons x xs ih =>
    cases hp : p x <;> simp [List.filter_cons, hp] <;> omega

/-! Claim theorems. -/

/-- Claim C8: for every confidence interval the derived score is
`clamp(100 - (upper - lower)/estimate*100/2, 0, 99)`; it is exactly 99 when
`estimate = 0` (the non-finite arm of the source guard is outside the
rational model), always lies in `[0, 99]`, and the value 100 is never
produced. -/
theorem c8_confidence_percent (estimate lower upper : ℚ) :
    (estimate = 0 → calculateConfidencePercent estimate lower upper = 99) ∧
    (estimate ≠ 0 →
      calculateConfidencePercent estimate lower upper =
        max 0 (min 99 (100 - (upper - lower) / estimate * 100 / 2))) ∧
    0 ≤ calculateConfidencePercent estimate lower upper ∧
    calculateConfidencePercent estimate lower upper ≤ 99 ∧
    calculateConfidencePercent estimate lower upper ≠ 100 := by
  unfold calculateConfidencePercent
  by_cases h : estimate = 0
  · rw [if_pos h]
    refine ⟨fun _ => rfl, fun h' => absurd h h', by norm_num, by norm_num, by norm_num⟩
  · rw [if_neg h]
    have hub : max 0 (min 99 (100 - (upper - lower) / estimate * 100 / 2)) ≤ 99 :=
      max_le (by norm_num) (min_le_left _ _)
    refine ⟨fun h' => absurd h' h, fun _ => rfl, le_max_left _ _, hub, ?_⟩
    intro hq
    rw [hq] at hub
    norm_num at hub

/-- Witness for C8 at concrete inputs: estimate 0 gives exactly 99, and a
nonzero estimate takes the clamped formula value. -/
theorem c8_confidence_percent_witness :
    calculateConfidencePercent 0 1 2 = 99 ∧
    calculateConfidencePercent 4 3 5 = max 0 (min 99 (100 - (5 - 3) / 4 * 100 / 2)) := by
  refine ⟨(c8_confidence_percent 0 1 2).1 rfl, ?_⟩
  exact (c8_confidence_percent 4 3 5).2.1 (by norm_num)

/-- Claim C6: for `startDay` in 1..28 the billing window starts at local
midnight of `startDay` of the previous month when `now.day < startDay` and
of the current month otherwise, and the end is exactly one calendar month
after the start (months are 0-based as in JS `Date`); includes the claim's
two concrete examples (March is month index 2). -/
theorem c6_billing_period (startDay : Int) (now : CivilDateTime)
    (h1 : 1 ≤ startDay) (h2 : startDay ≤ 28) (hm0 : 0 ≤ now.month) (hm1 : now.month ≤ 11) :
    (now.day < startDay →
      (getCurrentBillingPeriod startDay now).1 =
        (if now.month = 0 then { year := now.year - 1, month := 11, day := startDay }
         else { year := now.year, month := now.month - 1, day := startDay })) ∧
    (startDay ≤ now.day →
      (getCurrentBillingPeriod startDay now).1 =
        { year := now.year, month := now.month, day := startDay }) ∧
    ((getCurrentBillingPeriod startDay now).2 =
      (if (getCurrentBillingPeriod startDay now).1.month = 11 then
        { year := (getCurrentBillingPeriod startDay now).1.year + 1, month := 0,
          day := (getCurrentBillingPeriod startDay now).1.day }
       else
        { year := (getCurrentBillingPeriod startDay now).1.year,
          month := (getCurrentBillingPeriod startDay now).1.month + 1,
          day := (getCurrentBillingPeriod startDay now).1.day })) ∧
    (getCurrentBillingPeriod startDay now).1.hour = 0 ∧
    (getCurrentBillingPeriod startDay now).2.hour = 0 ∧
    getCurrentBillingPeriod 1
        { year := 2024, month := 2, day := 15, hour := 10, minute := 30 } =
      ({ year := 2024, month := 2, day := 1 }, { year := 2024, month := 3, day := 1 }) ∧
    getCurrentBillingPeriod 15 { year := 2024, month := 2, day := 10 } =
      ({ year := 2024, month := 1, day := 15 }, { year := 2024, month := 2, day := 15 }) := by
  refine ⟨?_, ?_, ?_, ?_, ?_, by decide, by decide⟩
  · intro hlt
    simp only [getCurrentBillingPeriod, if_pos hlt]
    by_cases hm : now.month = 0
    · rw [if_pos hm, hm]
      simp only [mkLocalMidnight, CivilDateTime.mk.injEq]
      simp only [and_true, true_and]
      omega
    · rw [if_neg hm]
      simp only [mkLocalMidnight, CivilDateTime.mk.injEq]
      simp only [and_true, true_and]
      omega
  · intro hge
    have hlt : ¬ now.day < startDay := by omega
    simp only [getCurrentBillingPeriod, if_neg hlt]
    simp only [mkLocalMidnight, CivilDateTime.mk.injEq]
    simp only [and_true, true_and]
    omega
  · have hstop : (getCurrentBillingPeriod startDay now).2 =
        mkLocalMidnight (getCurrentBillingPeriod startDay now).1.year
          ((getCurrentBillingPeriod startDay now).1.month + 1)
          (getCurrentBillingPeriod startDay now).1.day := rfl
    have hr : 0 ≤ (getCurrentBillingPeriod startDay now).1.month ∧
        (getCurrentBillingPeriod startDay now).1.month ≤ 11 := by
      simp only [getCurrentBillingPeriod]
      split <;> (simp only [mkLocalMidnight]; omega)
    rw [hstop]
    obtain ⟨hr0, hr1⟩ := hr
    by_cases h11 : (getCurrentBillingPeriod startDay now).1.month = 11
    · rw [if_pos h11, h11]
      simp only [mkLocalMidnight, CivilDateTime.mk.injEq]
      simp only [and_true, true_and]
      omega
    · rw [if_neg h11]
      simp only [mkLocalMidnight, CivilDateTime.mk.injEq]
      simp only [and_true, true_and]
      omega
  · simp only [getCurrentBillingPeriod]
    split <;> rfl
  · simp only [getCurrentBillingPeriod]
    split <;> rfl

/-- Witness for C6 at a concrete input discharging the range hypotheses
(startDay 15, now 2024-03-10, giving the previous-month start). -/
theorem c6_billing_period_witness :
    (getCurrentBillingPeriod 15 { year := 2024, month := 2, day := 10 }).1 =
      { year := 2024, month := 1, day := 15 } := by
  have h := (c6_billing_period 15 { year := 2024, month := 2, day := 10 }
    (by norm_num) (by norm_num) (by norm_num) (by norm_num)).1 (by norm_num)
  rw [h]
  decide

/-- Counterexample for C9: for the `datetimeHour` kind,
`formatDateForQuery` binds the *full* timestamp, not an hour-truncated
one — at 2024-03-15T12:34:56 the bound value keeps minutes and seconds. -/
theorem c9_time_filter_counterexample :
    formatDateForQuery dateMidHour "datetimeHour" = toISOString dateMidHour ∧
    formatDateForQuery dateMidHour "datetimeHour" ≠ toISOString (truncateToHour dateMidHour) ∧
    truncateToHour dateMidHour ≠ dateMidHour := by
  refine ⟨by decide, by decide, by decide⟩

/-- Claim C9 (amended): the three time-filter dialects are exactly
`date_geq`/`date_lt : Date`, `datetimeHour_geq`/`datetimeHour_lt : Time`
and `datetime_geq`/`datetime_lt : Time` (the default), one coherent triple
per filter field (never mixed); date-kind parameters are bound as the plain
calendar date `YYYY-MM-DD`, while datetime-kind *and* hour-kind parameters
are both bound as the full ISO timestamp — no hour truncation is
performed. -/
theorem c9_time_filter_dialects_amended :
    (getFilterConfig "date" =
      { filterStart := "date_geq", filterEnd := "date_lt", graphqlType := "Date" }) ∧
    (getFilterConfig "datetimeHour" =
      { filterStart := "datetimeHour_geq", filterEnd := "datetimeHour_lt",
        graphqlType := "Time" }) ∧
    (∀ ff, ff ≠ "date" → ff ≠ "datetimeHour" →
      getFilterConfig ff =
        { filterStart := "datetime_geq", filterEnd := "datetime_lt", graphqlType := "Time" }) ∧
    (∀ ff, getFilterConfig ff ∈
      [({ filterStart := "date_geq", filterEnd := "date_lt", graphqlType := "Date" } :
          FilterConfig),
        { filterStart := "datetimeHour_geq", filterEnd := "datetimeHour_lt",
          graphqlType := "Time" },
        { filterStart := "datetime_geq", filterEnd := "datetime_lt", graphqlType := "Time" }]) ∧
    (∀ d, formatDateForQuery d "date" = String.mk (isoDateChars d)) ∧
    (∀ d ff, ff ≠ "date" → formatDateForQuery d ff = toISOString d) := by
  refine ⟨rfl, rfl, ?_, ?_, formatDateForQuery_date, formatDateForQuery_other⟩
  · intro ff h1 h2
    simp [getFilterConfig, h1, h2]
  · intro ff
    by_cases h1 : ff = "date"
    · subst h1; simp [getFilterConfig]
    · by_cases h2 : ff = "datetimeHour"
      · subst h2; simp [getFilterConfig]
      · simp [getFilterConfig, h1, h2]

/-- Witness for C9's amended dialect table at the non-default filter
fields, discharging the inequality hypotheses at `"datetimeHour"`. -/
theorem c9_time_filter_witness :
    getFilterConfig "d1" =
      { filterStart := "datetime_geq", filterEnd := "datetime_lt", graphqlType := "Time" } ∧
    formatDateForQuery dateMidHour "d1" = toISOString dateMidHour := by
  refine ⟨(c9_time_filter_dialects_amended.2.2.1) "d1" (by decide) (by decide), ?_⟩
  exact (c9_time_filter_dialects_amended.2.2.2.2.2) dateMidHour "d1" (by decide)

/-- Claim C4: `categorizeUsage` places every record in exactly one bucket —
errors (JS-truthy `error`, in encounter order), else alerts
(`percentUsed ≥ alertThreshold`), else warnings
(`percentUsed ≥ warningThreshold`), else healthy (in encounter order) —
with alerts and warnings sorted descending by `percentUsed`, and the four
bucket sizes summing to the input length. -/
theorem c4_categorize_partition (results : List ProductUsageResult) (a w : ℚ) (ts : String) :
    (categorizeUsage results a w ts).errors = results.filter hasError ∧
    (categorizeUsage results a w ts).healthy = results.filter (healthyPred a w) ∧
    (categorizeUsage results a w ts).alerts.Perm (results.filter (alertPred a)) ∧
    (categorizeUsage results a w ts).warnings.Perm (results.filter (warnPred a w)) ∧
    (categorizeUsage results a w ts).alerts.Pairwise
      (fun x y => y.percentUsed ≤ x.percentUsed) ∧
    (categorizeUsage results a w ts).warnings.Pairwise
      (fun x y => y.percentUsed ≤ x.percentUsed) ∧
    (categorizeUsage results a w ts).alerts.length +
        (categorizeUsage results a w ts).warnings.length +
        (categorizeUsage results a w ts).healthy.length +
        (categorizeUsage results a w ts).errors.length = results.length := by
  have herr : (categorizeUsage results a w ts).errors = results.filter hasError := by
    simp only [categorizeUsage]
    rw [categorizeFold_errors]
    simp
  have hheal : (categorizeUsage results a w ts).healthy = results.filter (healthyPred a w) := by
    simp only [categorizeUsage]
    rw [categorizeFold_healthy]
    simp
  have halert : (categorizeUsage results a w ts).alerts =
      (results.filter (alertPred a)).mergeSort percentDesc := by
    simp only [categorizeUsage]
    rw [categorizeFold_alerts]
    simp
  have hwarn : (categorizeUsage results a w ts).warnings =
      (results.filter (warnPred a w)).mergeSort percentDesc := by
    simp only [categorizeUsage]
    rw [categorizeFold_warnings]
    simp
  have hap : (categorizeUsage results a w ts).alerts.Perm (results.filter (alertPred a)) := by
    rw [halert]; exact List.mergeSort_perm _ _
  have hwp : (categorizeUsage results a w ts).warnings.Perm
      (results.filter (warnPred a w)) := by
    rw [hwarn]; exact List.mergeSort_perm _ _
  refine ⟨herr, hheal, hap, hwp, ?_, ?_, ?_⟩
  · rw [halert]
    have hs := @List.sorted_mergeSort ProductUsageResult percentDesc
      percentDesc_trans percentDesc_total (results.filter (alertPred a))
    exact hs.imp (fun hab => by simpa [percentDesc, decide_eq_true_iff] using hab)
  · rw [hwarn]
    have hs := @List.sorted_mergeSort ProductUsageResult percentDesc
      percentDesc_trans percentDesc_total (results.filter (warnPred a w))
    exact hs.imp (fun hab => by simpa [percentDesc, decide_eq_true_iff] using hab)
  · rw [herr, hheal, hap.length_eq, hwp.length_eq]
    exact categorize_filter_partition a w results

/-- Counterexample for C5: a single partition carrying confidence data with
estimate 0 combines to `none` (so "None exactly when zero partitions
produced confidence data" fails), and two partitions reporting different
levels combine order-dependently (the level is taken from the last
partition). -/
theorem c5_confidence_combiner_counterexample :
    combineConfidence [confZeroEstimate] = none ∧
    ([confZeroEstimate] : List ConfidenceInterval) ≠ [] ∧
    combineConfidence [confLevelHi, confLevelLo] ≠
      combineConfidence [confLevelLo, confLevelHi] := by
  refine ⟨?_, by simp, ?_⟩
  · rw [combineConfidence, foldl_confStep, finalizeConfidence_eq_none_iff]
    right
    norm_num [confZeroEstimate]
  · rw [combineConfidence, combineConfidence, foldl_confStep, foldl_confStep]
    norm_num [finalizeConfidence, confLevelHi, confLevelLo, ConfidenceInterval.mk.injEq]

/-- Claim C5 (amended): combining per-partition confidence samples yields
`none` exactly when zero partitions produced confidence data *or the summed
estimate is not positive*; otherwise one interval whose `estimate`,
`lower`, `upper` and `sampleSize` are the sums, whose `isValid` is the AND
of the validities, and whose `level` is taken from the *last* partition;
the result is independent of the partition order *provided all partitions
report the same level*. -/
theorem c5_confidence_combiner_amended (cs : List ConfidenceInterval) :
    (combineConfidence cs = none ↔ cs = [] ∨ (cs.map (·.estimate)).sum ≤ 0) ∧
    (cs ≠ [] → 0 < (cs.map (·.estimate)).sum →
      combineConfidence cs = some
        { estimate := (cs.map (·.estimate)).sum
          lower := (cs.map (·.lower)).sum
          upper := (cs.map (·.upper)).sum
          sampleSize := (cs.map (·.sampleSize)).sum
          isValid := cs.all (·.isValid)
          level := (cs.map (·.level)).getLastD CONFIDENCE_LEVEL
          confidencePercent := some (calculateConfidencePercent
            (cs.map (·.estimate)).sum (cs.map (·.lower)).sum (cs.map (·.upper)).sum) }) ∧
    (∀ (cs' : List ConfidenceInterval) (L : ℚ), cs.Perm cs' → (∀ c ∈ cs, c.level = L) →
      combineConfidence cs = combineConfidence cs') := by
  refine ⟨?_, ?_, ?_⟩
  · rw [combineConfidence, foldl_confStep, finalizeConfidence_eq_none_iff]
    simp [List.isEmpty_iff]
  · intro hcs hpos
    have hie : cs.isEmpty = false := by simpa [List.isEmpty_eq_false] using hcs
    rw [combineConfidence, foldl_confStep]
    have hpos' : (0 : ℚ) + (cs.map (·.estimate)).sum > 0 := by simpa using hpos
    simp [finalizeConfidence, hie, hpos']
    exact hpos
  · intro cs' L hp hlev
    rw [combineConfidence, combineConfidence, foldl_confStep, foldl_confStep]
    have he : (cs.map (·.estimate)).sum = (cs'.map (·.estimate)).sum :=
      (hp.map (·.estimate)).sum_eq
    have hlo : (cs.map (·.lower)).sum = (cs'.map (·.lower)).sum :=
      (hp.map (·.lower)).sum_eq
    have hup : (cs.map (·.upper)).sum = (cs'.map (·.upper)).sum :=
      (hp.map (·.upper)).sum_eq
    have hsa : (cs.map (·.sampleSize)).sum = (cs'.map (·.sampleSize)).sum :=
      (hp.map (·.sampleSize)).sum_eq
    have hall : cs.all (·.isValid) = cs'.all (·.isValid) := all_perm_congr _ _ _ hp
    by_cases hcs : cs = []
    · subst hcs
      have : cs' = [] := hp.symm.eq_nil
      subst this
      rfl
    · have hcs' : cs' ≠ [] := by
        intro h
        subst h
        exact hcs hp.eq_nil
      have hie : cs.isEmpty = false := by simpa [List.isEmpty_eq_false] using hcs
      have hie' : cs'.isEmpty = false := by simpa [List.isEmpty_eq_false] using hcs'
      have hl1 : (cs.map (·.level)).getLastD CONFIDENCE_LEVEL = L :=
        getLastD_map_const _ L _ cs hlev hcs
      have hl2 : (cs'.map (·.level)).getLastD CONFIDENCE_LEVEL = L :=
        getLastD_map_const _ L _ cs' (fun c hc => hlev c (hp.mem_iff.mpr hc)) hcs'
      rw [he, hlo, hup, hsa, hall, hie, hie', hl1, hl2]

/-- Witness for C5's amended combiner: a same-level pair combines
order-independently, and a single positive-estimate partition combines to
the summed interval. -/
theorem c5_confidence_combiner_witness :
    combineConfidence [confLevelHi, confZeroEstimate] =
      combineConfidence [confZeroEstimate, confLevelHi] ∧
    combineConfidence [confLevelHi] = some
      { estimate := 4, lower := 3, upper := 5, sampleSize := 7, isValid := true,
        level := 0.95, confidencePercent := some (calculateConfidencePercent 4 3 5) } := by
  constructor
  · refine (c5_confidence_combiner_amended [confLevelHi, confZeroEstimate]).2.2
      [confZeroEstimate, confLevelHi] 0.95 ?_ ?_
    · exact List.Perm.swap _ _ _
    · intro c hc
      simp only [List.mem_cons, List.not_mem_nil, or_false] at hc
      rcases hc with rfl | rfl <;> rfl
  · have h := (c5_confidence_combiner_amended [confLevelHi]).2.1 (by simp)
      (by norm_num [confLevelHi])
    rw [h]
    norm_num [confLevelHi]

/-- Counterexample for C1: with zones `[Z1, Z2]` where Z1 cleanly reports
100 and Z2's query *throws*, the record keeps Z1's usage but its `error`
field IS set — refuting "the error field is set only when all zones
fail". -/
theorem c1_zone_fanout_counterexample :
    (queryProductUsage zoneProductA bs0 be0 (.thrown "unused") zrZ2Throws 7).currentUsage =
      100 ∧
    (queryProductUsage zoneProductA bs0 be0 (.thrown "unused") zrZ2Throws 7).error =
      some "boom" := by
  have hq := queryProductUsage_zone_thrown zoneProductA bs0 be0 (.thrown "unused")
    zrZ2Throws 7 ["Z1"] "Z2" [] "boom" rfl rfl
    (by
      intro z hz m
      simp only [List.mem_cons, List.not_mem_nil, or_false] at hz
      subst hz
      simp [zrZ2Throws])
    (by simp [zrZ2Throws])
  rw [hq]
  have hc : zoneContribution zoneProductA.dataset zoneProductA.field
      (zoneProductA.aggregation.getD .sum) zrZ2Throws "Z1" = 100 := by
    simp [zoneContribution, zrZ2Throws, zoneProductA, extractValue_mkPayload_value, rowValue,
      sumRow, getField_singleton, JVal.asNum?]
  simp [hc]

/-- Claim C1 (amended): for a zone-scoped metric, zero configured zones give
an immediate `error = "No zone tags configured"` with no query issued (the
result is oracle-independent); when no zone's query throws, the metric's
`error` stays unset — even if every zone answers with GraphQL-level errors —
and its usage is the (transformed) sum of the per-zone contributions, a
GraphQL-errored zone contributing zero; a zone whose query *throws* sets
`error` to that exception's message, keeping the usage accumulated from the
zones before it and aborting the rest. -/
theorem c1_zone_fanout_amended (product : ProductRuntime) (bs be : JSDate)
    (ar : QueryResult) (zr : String → QueryResult) (dur : ℚ)
    (h : product.scope = .zone) :
    (product.zoneTags.getD [] = [] →
      queryProductUsage product bs be ar zr dur =
        { initialUsageResult product bs be with
          error := some "No zone tags configured", queryDurationMs := some dur } ∧
      ∀ ar2 zr2, queryProductUsage product bs be ar zr dur =
        queryProductUsage product bs be ar2 zr2 dur) ∧
    (product.zoneTags.getD [] ≠ [] →
      (∀ t ∈ product.zoneTags.getD [], ∀ msg, zr t ≠ .thrown msg) →
      (queryProductUsage product bs be ar zr dur).error = none ∧
      (queryProductUsage product bs be ar zr dur).currentUsage =
        applyTransform product.transform
          (((product.zoneTags.getD []).map
            (zoneContribution product.dataset product.field
              (product.aggregation.getD .sum) zr)).sum)) ∧
    (∀ pre t post msg, product.zoneTags.getD [] = pre ++ t :: post →
      (∀ z ∈ pre, ∀ m, zr z ≠ .thrown m) → zr t = .thrown msg →
      (queryProductUsage product bs be ar zr dur).error = some msg ∧
      (queryProductUsage product bs be ar zr dur).currentUsage =
        (pre.map (zoneContribution product.dataset product.field
          (product.aggregation.getD .sum) zr)).sum) := by
  refine ⟨?_, ?_, ?_⟩
  · intro h2
    refine ⟨queryProductUsage_zone_noTags product bs be ar zr dur h h2, ?_⟩
    intro ar2 zr2
    rw [queryProductUsage_zone_noTags product bs be ar zr dur h h2,
      queryProductUsage_zone_noTags product bs be ar2 zr2 dur h h2]
  · intro hne hnothrow
    rw [queryProductUsage_zone_ok product bs be ar zr dur h hne hnothrow]
    simp [initialUsageResult_error]
  · intro pre t post msg hdecomp hpre ht
    rw [queryProductUsage_zone_thrown product bs be ar zr dur pre t post msg h hdecomp hpre ht]
    simp

/-- Witness for C1 at concrete inputs: zones `[Z1, Z2]` where Z1 cleanly
reports 100 and Z2 answers with a GraphQL-level error — the error field
stays unset and Z1's usage is kept. -/
theorem c1_zone_fanout_witness :
    (queryProductUsage zoneProductA bs0 be0 (.thrown "unused") zrZ2Errors 7).error = none ∧
    (queryProductUsage zoneProductA bs0 be0 (.thrown "unused") zrZ2Errors 7).currentUsage =
      100 := by
  have hnt : ∀ tg ∈ zoneProductA.zoneTags.getD [], ∀ m, zrZ2Errors tg ≠ .thrown m := by
    intro tg htg m
    have htg' : tg = "Z1" ∨ tg = "Z2" := by simpa [zoneProductA] using htg
    rcases htg' with rfl | rfl <;> simp [zrZ2Errors]
  have h := (c1_zone_fanout_amended zoneProductA bs0 be0 (.thrown "unused") zrZ2Errors 7
    rfl).2.1 (by simp [zoneProductA]) hnt
  refine ⟨h.1, ?_⟩
  rw [h.2]
  have hc1 : zoneContribution zoneProductA.dataset zoneProductA.field
      (zoneProductA.aggregation.getD .sum) zrZ2Errors "Z1" = 100 := by
    simp [zoneContribution, zrZ2Errors, zoneProductA, extractValue_mkPayload_value, rowValue,
      sumRow, getField_singleton, JVal.asNum?]
  have hc2 : zoneContribution zoneProductA.dataset zoneProductA.field
      (zoneProductA.aggregation.getD .sum) zrZ2Errors "Z2" = 0 := by
    simp [zoneContribution, zrZ2Errors]
  have htags : zoneProductA.zoneTags.getD [] = ["Z1", "Z2"] := rfl
  rw [htags]
  simp only [List.map_cons, List.map_nil, List.sum_cons, List.sum_nil, hc1, hc2]
  simp [zoneProductA, applyTransform]

/-- Counterexample for C2: a zone-scoped metric whose second zone query
throws after the first zone reported 200 yields a record with `error` set
but `currentUsage = 200`, not `0` — refuting "converted into that metric's
record with error set and currentUsage = 0". -/
theorem c2_batched_runner_counterexample :
    (queryAllProductUsage [zoneDefB] (fun _ => none) ["W1", "W2"] bs0 be0
      (fun _ => .thrown "unused") (fun _ => zrW2Throws) (fun _ => 3)).map
        (fun r => (r.error, r.currentUsage)) = [(some "crash", 200)] ∧
    (200 : ℚ) ≠ 0 := by
  refine ⟨?_, by norm_num⟩
  have hmerge : getEnabledProducts [zoneDefB] (fun _ => none) ["W1", "W2"] =
      [mergeProductConfig zoneDefB none ["W1", "W2"]] := by
    simp [getEnabledProducts, getConfiguredProducts, mergeProductConfig, zoneDefB]
  have hq := queryProductUsage_zone_thrown (mergeProductConfig zoneDefB none ["W1", "W2"])
    bs0 be0 (.thrown "unused") zrW2Throws 3 ["W1"] "W2" [] "crash"
    (by simp [mergeProductConfig, zoneDefB])
    (by simp [mergeProductConfig, zoneDefB, Option.orElse])
    (by
      intro z hz m
      simp only [List.mem_cons, List.not_mem_nil, or_false] at hz
      subst hz
      simp [zrW2Throws])
    (by simp [zrW2Throws])
  rw [queryAllProductUsage, hmerge]
  rw [chunks_cons]
  simp only [List.take, List.drop, chunks, List.map_cons, List.map_nil, List.flatten]
  rw [hq]
  have hc : zoneContribution (mergeProductConfig zoneDefB none ["W1", "W2"]).dataset
      (mergeProductConfig zoneDefB none ["W1", "W2"]).field
      ((mergeProductConfig zoneDefB none ["W1", "W2"]).aggregation.getD .sum)
      zrW2Throws "W1" = 200 := by
    simp [zoneContribution, zrW2Throws, mergeProductConfig, zoneDefB,
      extractValue_mkPayload_value, rowValue, sumRow, getField_singleton, JVal.asNum?]
  simp [hc]

/-- Claim C2 (amended): the runner maps the enabled metrics through the
per-metric query in input order — exactly one record per metric — working
through consecutive batches of `BATCH_SIZE = 5` (all of size 5 except a
shorter last one; 12 metrics give 5, 5, 2); every exception is captured in
that metric's record with `error` set, `currentUsage` keeping whatever zone
usage had accumulated before the exception (0 for account-scoped metrics,
where nothing precedes it). -/
theorem c2_batched_runner_amended :
    (∀ (registry : List ProductDefinition) (overrides : String → Option ProductConfig)
        (zoneTags : List String) (bs be : JSDate)
        (ar : ProductRuntime → QueryResult) (zr : ProductRuntime → String → QueryResult)
        (dur : ProductRuntime → ℚ),
      queryAllProductUsage registry overrides zoneTags bs be ar zr dur =
        (getEnabledProducts registry overrides zoneTags).map (fun p =>
          queryProductUsage p bs be (ar p) (zr p) (dur p))) ∧
    (∀ (l : List ProductRuntime), (chunks BATCH_SIZE l).flatten = l) ∧
    (∀ (l : List ProductRuntime) (c : List ProductRuntime),
      c ∈ chunks BATCH_SIZE l → c.length ≤ 5) ∧
    (∀ (l : List ProductRuntime), l.length = 12 →
      (chunks BATCH_SIZE l).map List.length = [5, 5, 2]) ∧
    (∀ (p : ProductRuntime) (bs be : JSDate) (zr : String → QueryResult) (dur : ℚ)
        (msg : String), p.scope = .account →
      (queryProductUsage p bs be (.thrown msg) zr dur).error = some msg ∧
      (queryProductUsage p bs be (.thrown msg) zr dur).currentUsage = 0) ∧
    (∀ (p : ProductRuntime) (bs be : JSDate) (ar : QueryResult)
        (zr : String → QueryResult) (dur : ℚ) (pre : List String) (t : String)
        (post : List String) (msg : String),
      p.scope = .zone → p.zoneTags.getD [] = pre ++ t :: post →
      (∀ z ∈ pre, ∀ m, zr z ≠ .thrown m) → zr t = .thrown msg →
      (queryProductUsage p bs be ar zr dur).error = some msg ∧
      (queryProductUsage p bs be ar zr dur).currentUsage =
        (pre.map (zoneContribution p.dataset p.field (p.aggregation.getD .sum) zr)).sum) := by
  refine ⟨?_, ?_, ?_, ?_, ?_, ?_⟩
  · intro registry overrides zoneTags bs be ar zr dur
    rw [queryAllProductUsage]
    rw [← List.map_flatten, chunks_flatten BATCH_SIZE (by norm_num [BATCH_SIZE])]
  · intro l
    exact chunks_flatten BATCH_SIZE (by norm_num [BATCH_SIZE]) l
  · intro l c hc
    exact chunks_sizes_le BATCH_SIZE (by norm_num [BATCH_SIZE]) l c hc
  · intro l hl
    rw [chunks_map_length BATCH_SIZE (by norm_num [BATCH_SIZE]), hl]
    simp [chunkLens, BATCH_SIZE]
  · intro p bs be zr dur msg h
    rw [queryProductUsage_account_thrown p bs be zr dur msg h]
    simp [initialUsageResult_currentUsage]
  · intro p bs be ar zr dur pre t post msg h hdecomp hpre ht
    rw [queryProductUsage_zone_thrown p bs be ar zr dur pre t post msg h hdecomp hpre ht]
    simp

/-- Witness for C2 at concrete inputs: a single enabled metric maps to a
single record, twelve items chunk as 5, 5, 2, and a thrown account query
surfaces as that record's error with usage 0. -/
theorem c2_batched_runner_witness :
    (chunks BATCH_SIZE ((List.range 12).map (fun k =>
      mergeProductConfig zoneDefB none [toString k]))).map List.length = [5, 5, 2] ∧
    (queryProductUsage unlimitedProductB bs0 be0 (.thrown "down") (fun _ => .thrown "x")
      2).error = some "down" := by
  constructor
  · exact (c2_batched_runner_amended.2.2.2.1) _ (by simp)
  · exact ((c2_batched_runner_amended.2.2.2.2.1) unlimitedProductB bs0 be0 _ 2 "down" rfl).1

lemma queryProductUsage_percent_congr (p q : ProductRuntime) (bs be : JSDate)
    (ar : QueryResult) (zr : String → QueryResult) (dur : ℚ)
    (hsc : q.scope = p.scope) (htg : q.zoneTags = p.zoneTags) (hlim : q.limit = p.limit)
    (htr : q.transform = p.transform) (hds : q.dataset = p.dataset)
    (hfd : q.field = p.field) (hag : q.aggregation = p.aggregation) :
    (queryProductUsage q bs be ar zr dur).percentUsed =
      (queryProductUsage p bs be ar zr dur).percentUsed ∧
    (queryProductUsage q bs be ar zr dur).currentUsage =
      (queryProductUsage p bs be ar zr dur).currentUsage := by
  cases hs : p.scope with
  | account =>
    cases ar with
    | thrown msg =>
      rw [queryProductUsage_account_thrown p bs be zr dur msg hs,
        queryProductUsage_account_thrown q bs be zr dur msg (hsc.trans hs)]
      simp [initialUsageResult_percentUsed, initialUsageResult_currentUsage]
    | response errors data =>
      rw [queryProductUsage_account_response p bs be errors data zr dur hs,
        queryProductUsage_account_response q bs be errors data zr dur (hsc.trans hs)]
      cases he : errors.isEmpty with
      | true =>
        simp only [he, if_true]
        rw [htr, hds, hfd, hag, hlim]
        constructor <;> rfl
      | false =>
        simp only [Bool.false_eq_true, if_false]
        simp [initialUsageResult_percentUsed, initialUsageResult_currentUsage]
  | zone =>
    by_cases htags : p.zoneTags.getD [] = []
    · rw [queryProductUsage_zone_noTags p bs be ar zr dur hs htags,
        queryProductUsage_zone_noTags q bs be ar zr dur (hsc.trans hs)
          (by rw [htg]; exact htags)]
      simp [initialUsageResult_percentUsed, initialUsageResult_currentUsage]
    · rcases exists_thrown_decomp zr (p.zoneTags.getD []) with
        hnothrow | ⟨pre, t, post, msg, hdec, hpre, ht⟩
      · rw [queryProductUsage_zone_ok p bs be ar zr dur hs htags hnothrow,
          queryProductUsage_zone_ok q bs be ar zr dur (hsc.trans hs)
            (by rw [htg]; exact htags) (by rw [htg]; exact hnothrow)]
        rw [htg, htr, hds, hfd, hag, hlim]
        constructor <;> rfl
      · rw [queryProductUsage_zone_thrown p bs be ar zr dur pre t post msg hs hdec hpre ht,
          queryProductUsage_zone_thrown q bs be ar zr dur pre t post msg (hsc.trans hs)
            (by rw [htg]; exact hdec) hpre ht]
        rw [hds, hfd, hag]
        simp [initialUsageResult_percentUsed, initialUsageResult_currentUsage]

/-- Counterexample for C3: a product flagged `unlimited` with a positive
limit still gets `percentUsed = currentUsage/limit*100` (here 50, not 0) —
`queryProductUsage` never consults the `unlimited` flag. -/
theorem c3_percent_used_counterexample :
    unlimitedProductB.unlimited = some true ∧
    (queryProductUsage unlimitedProductB bs0 be0
      (.response [] (mkPayload .account "gatewayResolverQueriesAdaptiveGroups"
        [sumRow "f" 50]))
      (fun _ => .thrown "z") 1).percentUsed = 50 ∧
    (50 : ℚ) ≠ 0 := by
  refine ⟨rfl, ?_, by norm_num⟩
  rw [queryProductUsage_account_response unlimitedProductB bs0 be0 []
    (mkPayload .account "gatewayResolverQueriesAdaptiveGroups" [sumRow "f" 50])
    (fun _ => .thrown "z") 1 rfl]
  simp only [List.isEmpty_nil, if_true]
  have hv : (extractValue (mkPayload .account "gatewayResolverQueriesAdaptiveGroups"
      [sumRow "f" 50]) unlimitedProductB.dataset unlimitedProductB.field
      (unlimitedProductB.aggregation.getD .sum) .account).value = 50 := by
    simp [unlimitedProductB, extractValue_mkPayload_value, rowValue, sumRow,
      getField_singleton, JVal.asNum?]
  simp only [hv]
  norm_num [unlimitedProductB, applyTransform]

/-- Claim C3 (amended): whenever no query for the metric throws,
`percentUsed = limit > 0 ? currentUsage/limit*100 : 0` — so `limit = 0`
yields 0 with no division — but the `unlimited` flag is never consulted
(flipping it changes neither `currentUsage` nor `percentUsed`; unlimited
products get `percentUsed = 0` only through their zero default limits);
when a query throws, `percentUsed` stays 0. -/
theorem c3_percent_used_amended (p : ProductRuntime) (bs be : JSDate)
    (ar : QueryResult) (zr : String → QueryResult) (dur : ℚ) :
    (noThrownResponses p ar zr →
      (queryProductUsage p bs be ar zr dur).percentUsed =
        (if p.limit > 0 then
          (queryProductUsage p bs be ar zr dur).currentUsage / p.limit * 100
         else 0)) ∧
    (p.limit = 0 → (queryProductUsage p bs be ar zr dur).percentUsed = 0) ∧
    (∀ b, (queryProductUsage { p with unlimited := b } bs be ar zr dur).percentUsed =
        (queryProductUsage p bs be ar zr dur).percentUsed ∧
      (queryProductUsage { p with unlimited := b } bs be ar zr dur).currentUsage =
        (queryProductUsage p bs be ar zr dur).currentUsage) ∧
    (∀ msg, p.scope = .account → ar = .thrown msg →
      (queryProductUsage p bs be ar zr dur).percentUsed = 0) ∧
    (∀ pre t post msg, p.scope = .zone → p.zoneTags.getD [] = pre ++ t :: post →
      (∀ z ∈ pre, ∀ m, zr z ≠ .thrown m) → zr t = .thrown msg →
      (queryProductUsage p bs be ar zr dur).percentUsed = 0) := by
  refine ⟨?_, ?_, ?_, ?_, ?_⟩
  · intro hnt
    cases hs : p.scope with
    | account =>
      cases ar with
      | thrown msg => exact absurd rfl (hnt.1 hs msg)
      | response errors data =>
        rw [queryProductUsage_account_response p bs be errors data zr dur hs]
        cases he : errors.isEmpty with
        | true => simp only [he, if_true]
        | false =>
          simp only [Bool.false_eq_true, if_false]
          by_cases hl : p.limit > 0 <;>
            simp [hl, initialUsageResult_currentUsage, initialUsageResult_percentUsed]
    | zone =>
      by_cases htags : p.zoneTags.getD [] = []
      · rw [queryProductUsage_zone_noTags p bs be ar zr dur hs htags]
        by_cases hl : p.limit > 0 <;>
          simp [hl, initialUsageResult_currentUsage, initialUsageResult_percentUsed]
      · rw [queryProductUsage_zone_ok p bs be ar zr dur hs htags (hnt.2 hs)]
  · intro hl0
    have hl : ¬ p.limit > 0 := by rw [hl0]; exact lt_irrefl 0
    cases hs : p.scope with
    | account =>
      cases ar with
      | thrown msg =>
        rw [queryProductUsage_account_thrown p bs be zr dur msg hs]
        simp [initialUsageResult_percentUsed]
      | response errors data =>
        rw [queryProductUsage_account_response p bs be errors data zr dur hs]
        cases he : errors.isEmpty with
        | true => simp only [he, if_true]; simp [hl]
        | false =>
          simp only [Bool.false_eq_true, if_false]
          simp [initialUsageResult_percentUsed]
    | zone =>
      by_cases htags : p.zoneTags.getD [] = []
      · rw [queryProductUsage_zone_noTags p bs be ar zr dur hs htags]
        simp [initialUsageResult_percentUsed]
      · rcases exists_thrown_decomp zr (p.zoneTags.getD []) with
          hnothrow | ⟨pre, t, post, msg, hdec, hpre, ht⟩
        · rw [queryProductUsage_zone_ok p bs be ar zr dur hs htags hnothrow]
          simp [hl]
        · rw [queryProductUsage_zone_thrown p bs be ar zr dur pre t post msg hs hdec hpre ht]
          simp [initialUsageResult_percentUsed]
  · intro b
    exact queryProductUsage_percent_congr p { p with unlimited := b } bs be ar zr dur
      rfl rfl rfl rfl rfl rfl rfl
  · intro msg hs har
    subst har
    rw [queryProductUsage_account_thrown p bs be zr dur msg hs]
    simp [initialUsageResult_percentUsed]
  · intro pre t post msg hs hdec hpre ht
    rw [queryProductUsage_zone_thrown p bs be ar zr dur pre t post msg hs hdec hpre ht]
    simp [initialUsageResult_percentUsed]

/-- Witness for C3 at concrete inputs: a clean account response on a
product with limit 100 and usage 50 gives `percentUsed = 50`, the
`limit = 0` clause holds for a zero-limit variant, and a thrown account
query on the limit-100 product leaves `percentUsed = 0`. -/
theorem c3_percent_used_witness :
    (queryProductUsage unlimitedProductB bs0 be0
        (.response [] (mkPayload .account "gatewayResolverQueriesAdaptiveGroups"
          [sumRow "f" 50])) (fun _ => .thrown "z") 1).percentUsed =
      (if unlimitedProductB.limit > 0 then
        (queryProductUsage unlimitedProductB bs0 be0
          (.response [] (mkPayload .account "gatewayResolverQueriesAdaptiveGroups"
            [sumRow "f" 50])) (fun _ => .thrown "z") 1).currentUsage /
          unlimitedProductB.limit * 100
       else 0) ∧
    (queryProductUsage { unlimitedProductB with limit := 0 } bs0 be0
      (.response [] (mkPayload .account "gatewayResolverQueriesAdaptiveGroups"
        [sumRow "f" 50])) (fun _ => .thrown "z") 1).percentUsed = 0 ∧
    (queryProductUsage unlimitedProductB bs0 be0 (.thrown "down2")
      (fun _ => .thrown "x") 2).percentUsed = 0 := by
  refine ⟨?_, ?_, ?_⟩
  · exact (c3_percent_used_amended unlimitedProductB bs0 be0 _ _ 1).1
      ⟨fun _ msg => by simp, fun hz => by cases hz⟩
  · exact (c3_percent_used_amended { unlimitedProductB with limit := 0 } bs0 be0 _ _ 1).2.1 rfl
  · exact (c3_percent_used_amended unlimitedProductB bs0 be0 (.thrown "down2")
      (fun _ => .thrown "x") 2).2.2.2.1 "down2" rfl rfl

/-- Claim C7: result normalisation sums the requested aggregate across all
rows of the dataset result array; an absent or empty result array (empty
scope array, empty row array, or missing dataset key) yields value 0 with
no confidence; a structural mismatch (here a null payload) is caught and
yields value 0 instead of an exception; and the unit transform is applied
to the combined value only when it is defined and the value is positive
(hence nonzero) — `queryProductUsage` sets `currentUsage` to the
transformed extracted value. -/
theorem c7_result_normalizer :
    (∀ (s : ProductScope) (dataset f : String) (a : AggregationType) (rows : List JVal),
      (extractValue (mkPayload s dataset rows) dataset f a s).value =
        (rows.map (rowValue a f)).sum) ∧
    (∀ (s : ProductScope) (dataset f : String) (a : AggregationType),
      extractValue (mkPayload s dataset []) dataset f a s = ⟨0, none⟩) ∧
    (∀ (s : ProductScope) (dataset f : String) (a : AggregationType),
      extractValue (JVal.obj [("viewer", JVal.obj [(scopeKey s, JVal.arr [])])])
        dataset f a s = ⟨0, none⟩) ∧
    (∀ (s : ProductScope) (k dataset f : String) (a : AggregationType) (rows : List JVal),
      k ≠ dataset → extractValue (mkPayload s k rows) dataset f a s = ⟨0, none⟩) ∧
    (∀ (dataset f : String) (a : AggregationType) (s : ProductScope),
      extractValue JVal.null dataset f a s = ⟨0, none⟩) ∧
    (∀ v : ℚ, applyTransform none v = v) ∧
    (∀ (g : ℚ → ℚ) (v : ℚ), applyTransform (some g) v = if v > 0 then g v else v) ∧
    (∀ (p : ProductRuntime) (bs be : JSDate) (zr : String → QueryResult) (dur : ℚ)
        (data : JVal), p.scope = .account →
      (queryProductUsage p bs be (.response [] data) zr dur).currentUsage =
        applyTransform p.transform
          (extractValue data p.dataset p.field (p.aggregation.getD .sum) .account).value) := by
  refine ⟨extractValue_mkPayload_value, extractValue_mkPayload_nil, extractValue_emptyScope,
    fun s k dataset f a rows hk => extractValue_missingDataset s k dataset f a rows hk,
    extractValue_null, fun v => rfl, fun g v => rfl, ?_⟩
  intro p bs be zr dur data hs
  rw [queryProductUsage_account_response p bs be [] data zr dur hs]
  simp only [List.isEmpty_nil, if_true]

/-- Witness for C7 at concrete inputs: a payload stored under a different
dataset key normalises to zero, and a clean account response feeds the
(transformed) extracted value into `currentUsage`. -/
theorem c7_result_normalizer_witness :
    extractValue (mkPayload .zone "x" [sumRow "f" 3]) "y" "f" .sum .zone = ⟨0, none⟩ ∧
    (queryProductUsage unlimitedProductB bs0 be0 (.response [] JVal.null)
        (fun _ => .thrown "t") 5).currentUsage =
      applyTransform unlimitedProductB.transform
        (extractValue JVal.null unlimitedProductB.dataset unlimitedProductB.field
          (unlimitedProductB.aggregation.getD .sum) .account).value := by
  refine ⟨(c7_result_normalizer.2.2.2.1) .zone "x" "y" "f" .sum [sumRow "f" 3] (by decide), ?_⟩
  exact (c7_result_normalizer.2.2.2.2.2.2.2) unlimitedProductB bs0 be0 _ 5 JVal.null rfl

/-- Claim C10: `queryAllConfiguredProductUsage` returns the queried records
of the enabled survivors of the zone-filter suppression, followed by one
unqueried placeholder per disabled survivor (so one record per surviving
product overall), and each placeholder has usage 0, percent 0, duration 0
and `enabled = false`. -/
theorem c10_query_all_configured (registry : List ProductDefinition)
    (overrides : String → Option ProductConfig) (zoneTags : List String)
    (zoneId : Option String) (bs be : JSDate)
    (ar : ProductRuntime → QueryResult) (zr : ProductRuntime → String → QueryResult)
    (dur : ProductRuntime → ℚ) :
    queryAllConfiguredProductUsage registry overrides zoneTags zoneId bs be ar zr dur =
      ((filteredConfiguredProducts registry overrides zoneTags zoneId).filter
        (·.enabled)).map (fun p => queryProductUsage p bs be (ar p) (zr p) (dur p)) ++
      ((filteredConfiguredProducts registry overrides zoneTags zoneId).filter
        (fun p => !p.enabled)).map (fun p => disabledPlaceholder p bs be) ∧
    (queryAllConfiguredProductUsage registry overrides zoneTags zoneId bs be ar zr dur).length =
      (filteredConfiguredProducts registry overrides zoneTags zoneId).length ∧
    (∀ (p : ProductRuntime) (bs' be' : JSDate),
      (disabledPlaceholder p bs' be').currentUsage = 0 ∧
      (disabledPlaceholder p bs' be').percentUsed = 0 ∧
      (disabledPlaceholder p bs' be').queryDurationMs = some 0 ∧
      (disabledPlaceholder p bs' be').enabled = some false ∧
      (disabledPlaceholder p bs' be').error = none) := by
  have hmain : queryAllConfiguredProductUsage registry overrides zoneTags zoneId bs be ar zr
      dur =
      ((filteredConfiguredProducts registry overrides zoneTags zoneId).filter
        (·.enabled)).map (fun p => queryProductUsage p bs be (ar p) (zr p) (dur p)) ++
      ((filteredConfiguredProducts registry overrides zoneTags zoneId).filter
        (fun p => !p.enabled)).map (fun p => disabledPlaceholder p bs be) := by
    rw [queryAllConfiguredProductUsage]
    rw [← List.map_flatten, chunks_flatten BATCH_SIZE (by norm_num [BATCH_SIZE])]
  refine ⟨hmain, ?_, fun p bs' be' => ⟨rfl, rfl, rfl, rfl, rfl⟩⟩
  rw [hmain]
  simp only [List.length_append, List.length_map]
  exact length_filter_partition (fun p : ProductRuntime => p.enabled) _
